import Mathlib

/-!
Verification of the artflip maintenance scripts.

This file gives a shallow embedding, in Lean 4, of the parts of the
artflip repository (museum fetch scripts, JSON cleanup utilities and the
deploy checker) that the specification talks about, and proves or refutes
the specification claims against that embedding.

Conventions of the embedding:
* Python strings are Lean `String`; the Python operations used by the
  scripts (`str.strip`, `str.lower`, `str.startswith`, substring tests,
  `str(int)` and `int(str)`) are re-implemented below on the underlying
  character lists, following CPython semantics for the ASCII inputs the
  scripts handle.
* Python sets of id strings are modelled as Lean lists with membership;
  `set.add` appends when absent.
* JSON values are the inductive `JsonVal`; `dict.get`, the `in` operator
  and truthiness follow CPython semantics per runtime type.
* HTTP and filesystem effects are modelled by explicit response/outcome
  parameters: each embedded function takes the outcome of the requests it
  performs as an argument, and returns the file/cache state it writes.
-/

/-- Whitespace test used by Python `str.strip` (ASCII cases). -/
def pyIsSpace (c : Char) : Bool :=
  c = ' ' || c = '\t' || c = '\n' || c = '\r' || c = '\x0b' || c = '\x0c'

/-- Python `s.strip()` on the character list: drop whitespace from both ends. -/
def pyStripData (l : List Char) : List Char :=
  List.rdropWhile pyIsSpace (List.dropWhile pyIsSpace l)

/-- Python `s.strip()`. -/
def pyStrip (s : String) : String := ⟨pyStripData s.data⟩

/-- Python `s.startswith(t)`. -/
def pyStartsWith (s t : String) : Bool := t.data.isPrefixOf s.data

/-- ASCII lower-casing of one character, as Python `str.lower` does on ASCII. -/
def lowerChar (c : Char) : Char :=
  if 'A' ≤ c && c ≤ 'Z' then Char.ofNat (c.toNat + 32) else c

/-- Python `s.lower()` (ASCII fragment, which covers every phrase the scripts test). -/
def pyLower (s : String) : String := ⟨s.data.map lowerChar⟩

/-- Substring test on character lists: Python `pat in text` for strings. -/
def containsSub (text pat : List Char) : Bool :=
  text.tails.any (fun t => pat.isPrefixOf t)

/-- Python `f"{n}"` / `str(n)` for a natural number: decimal digits. -/
def natDigits (n : Nat) : List Char :=
  if _h : n < 10 then [Char.ofNat (48 + n)]
  else natDigits (n / 10) ++ [Char.ofNat (48 + n % 10)]
termination_by n
decreasing_by exact Nat.div_lt_self (by omega) (by omega)

/-- Python `str(n)` for a natural number. -/
def pyStr (n : Nat) : String := ⟨natDigits n⟩

/-- Python `int(s)` on a decimal digit string, as a fold over the digits. -/
def pyIntData (l : List Char) : Nat :=
  l.foldl (fun a c => a * 10 + (c.toNat - 48)) 0

/-- Python `int(s)` on a decimal digit string. -/
def pyInt (s : String) : Nat := pyIntData s.data

/-- Python `s.isdigit()` (ASCII digits; the ids the scripts sort are such strings). -/
def isDigitStr (s : String) : Bool :=
  !s.data.isEmpty && s.data.all (fun c => '0' ≤ c && c ≤ '9')

theorem char_digit_toNat (d : Nat) (hd : d < 10) :
    (Char.ofNat (48 + d)).toNat = 48 + d := by
  interval_cases d <;> decide

theorem pyIntData_natDigits (n : Nat) : pyIntData (natDigits n) = n := by
  induction n using Nat.strong_induction_on with
  | _ n ih =>
    unfold natDigits
    split
    · simp only [pyIntData, List.foldl_cons, List.foldl_nil, Nat.zero_mul, Nat.zero_add]
      rw [char_digit_toNat n (by omega)]
      omega
    · simp only [pyIntData, List.foldl_append, List.foldl_cons, List.foldl_nil]
      have h1 : pyIntData (natDigits (n / 10)) = n / 10 :=
        ih (n / 10) (Nat.div_lt_self (by omega) (by omega))
      simp only [pyIntData] at h1
      rw [h1, char_digit_toNat (n % 10) (by omega)]
      omega

theorem pyInt_pyStr (n : Nat) : pyInt (pyStr n) = n := by
  simpa [pyInt, pyStr] using pyIntData_natDigits n

/-! ### C1: `compare_and_report` in metfetch.py and chicfetch.py

Both fetchers turn the API id list into a set of strings, subtract the
existing-collection set and the blacklist set, convert the remainder back
to integers and sort.  The embedding models the Python string sets as
deduplicated lists; `sorted` is `List.mergeSort` on the numeric value. -/

/-- `MetDownloader.compare_and_report` (metfetch.py, lines 213-252), reduced to its
returned value: the console reporting has no effect on the result. -/
def met_compare_and_report (api_ids : List Nat) (existing_ids blacklist_ids : List String) :
    List Nat :=
  let api_ids_str := (api_ids.map pyStr).dedup
  let new_ids_str := api_ids_str.filter
    (fun s => decide (s ∉ existing_ids ∧ s ∉ blacklist_ids))
  (new_ids_str.map pyInt).mergeSort (fun a b => decide (a ≤ b))

/-- `ChicDownloader.compare_and_report` (chicfetch.py, lines 301-329): the same
set algebra as the Met version. -/
def chic_compare_and_report (api_ids : List Nat) (existing_ids blacklist_ids : List String) :
    List Nat :=
  let api_ids_str := (api_ids.map pyStr).dedup
  let new_ids_str := api_ids_str.filter
    (fun s => decide (s ∉ existing_ids ∧ s ∉ blacklist_ids))
  (new_ids_str.map pyInt).mergeSort (fun a b => decide (a ≤ b))

theorem compare_mem_aux (api_ids : List Nat) (existing_ids blacklist_ids : List String)
    (m : Nat) :
    (m ∈ met_compare_and_report api_ids existing_ids blacklist_ids) ↔
      (m ∈ api_ids ∧ pyStr m ∉ existing_ids ∧ pyStr m ∉ blacklist_ids) := by
  simp only [met_compare_and_report, List.mem_mergeSort, List.mem_map, List.mem_filter,
    List.mem_dedup, decide_eq_true_eq]
  constructor
  · rintro ⟨s, ⟨⟨a, ha, rfl⟩, hnot⟩, rfl⟩
    rw [pyInt_pyStr]
    exact ⟨ha, hnot⟩
  · rintro ⟨hm, hnot⟩
    exact ⟨pyStr m, ⟨⟨m, hm, rfl⟩, hnot⟩, pyInt_pyStr m⟩

theorem compare_nodup_aux (api_ids : List Nat) (existing_ids blacklist_ids : List String) :
    (met_compare_and_report api_ids existing_ids blacklist_ids).Nodup := by
  unfold met_compare_and_report
  apply (List.mergeSort_perm _ _).symm.nodup
  apply List.Nodup.map_on
  · intro s hs t ht hst
    simp only [List.mem_filter, List.mem_dedup, List.mem_map] at hs ht
    obtain ⟨⟨a, _, rfl⟩, _⟩ := hs
    obtain ⟨⟨b, _, rfl⟩, _⟩ := ht
    simp only [pyInt_pyStr] at hst
    rw [hst]
  · exact (List.nodup_dedup _).filter _

theorem compare_sorted_aux (api_ids : List Nat) (existing_ids blacklist_ids : List String) :
    List.Pairwise (fun a b => a ≤ b)
      (met_compare_and_report api_ids existing_ids blacklist_ids) := by
  unfold met_compare_and_report
  have h := @List.sorted_mergeSort Nat (fun a b => decide (a ≤ b))
    (by intro a b c hab hbc; simp only [decide_eq_true_eq] at *; omega)
    (by intro a b; simp only [Bool.or_eq_true, decide_eq_true_eq]; omega)
    (((api_ids.map pyStr).dedup.filter
      (fun s => decide (s ∉ existing_ids ∧ s ∉ blacklist_ids))).map pyInt)
  simpa only [decide_eq_true_eq] using h

/-- C1. For every list of API object ids and every pair of string sets
(existing collection, blacklist), both fetchers' `compare_and_report` return
exactly the API ids whose string form lies in neither set, as integers,
without duplicates and sorted in ascending numeric order. -/
theorem c1_compare_and_report_correct
    (api_ids : List Nat) (existing_ids blacklist_ids : List String) :
    (∀ m : Nat,
        (m ∈ met_compare_and_report api_ids existing_ids blacklist_ids ↔
          (m ∈ api_ids ∧ pyStr m ∉ existing_ids ∧ pyStr m ∉ blacklist_ids)) ∧
        (m ∈ chic_compare_and_report api_ids existing_ids blacklist_ids ↔
          (m ∈ api_ids ∧ pyStr m ∉ existing_ids ∧ pyStr m ∉ blacklist_ids))) ∧
      (met_compare_and_report api_ids existing_ids blacklist_ids).Nodup ∧
      List.Pairwise (fun a b => a ≤ b)
        (met_compare_and_report api_ids existing_ids blacklist_ids) ∧
      (chic_compare_and_report api_ids existing_ids blacklist_ids).Nodup ∧
      List.Pairwise (fun a b => a ≤ b)
        (chic_compare_and_report api_ids existing_ids blacklist_ids) := by
  have hsame : chic_compare_and_report api_ids existing_ids blacklist_ids =
      met_compare_and_report api_ids existing_ids blacklist_ids := rfl
  refine ⟨fun m => ⟨compare_mem_aux api_ids existing_ids blacklist_ids m, ?_⟩,
    compare_nodup_aux api_ids existing_ids blacklist_ids,
    compare_sorted_aux api_ids existing_ids blacklist_ids, ?_, ?_⟩
  · rw [hsame]; exact compare_mem_aux api_ids existing_ids blacklist_ids m
  · rw [hsame]; exact compare_nodup_aux api_ids existing_ids blacklist_ids
  · rw [hsame]; exact compare_sorted_aux api_ids existing_ids blacklist_ids

/-! ### C2: `NGADownloader.is_public_domain` (ngafetch.py, lines 213-340)

The scraper checks its two caches, fetches the single candidate object
page, scans the lower-cased page text for negative phrases first and then
positive phrases, optionally verifies the IIIF image with a HEAD request,
and defaults to reject.  The embedding takes the page fetch outcome and
the IIIF HEAD outcome as parameters. -/

/-- Phrases that indicate public domain (ngafetch.py, `positive_phrases`). -/
def nga_positive_phrases : List String :=
  ["Image download available",
   "This object\x27s media is free and in the public domain",
   "This object\u2019s media is free and in the public domain",
   "Download image"]

/-- Phrases that indicate not public domain (ngafetch.py, `negative_phrases`). -/
def nga_negative_phrases : List String :=
  ["This image cannot be downloaded",
   "Image not available for download",
   "Rights restricted"]

/-- The two on-disk caches of verified ids (`public_domain_ids.json`,
`not_public_domain_ids.json`), modelled as lists. -/
structure NGACache where
  pd : List String
  npd : List String

/-- Outcome of fetching the object page: `ok text` is an HTTP 200 answer with
body `text`; `fail` covers 404, any non-200 status, timeouts and exceptions,
all of which the loop skips with `continue`. -/
inductive NGAPage where
  | ok (text : String)
  | fail

/-- Python `phrase.lower() in text` where `text = resp.text.lower()`. -/
def phraseHit (text p : String) : Bool :=
  containsSub (pyLower text).data (pyLower p).data

/-- Scan for any negative phrase in the page text. -/
def ngaNegAny (text : String) : Bool := nga_negative_phrases.any (phraseHit text)

/-- Scan for any positive phrase in the page text. -/
def ngaPosAny (text : String) : Bool := nga_positive_phrases.any (phraseHit text)

/-- Python `set.add`, on the list model of a set. -/
def addIfAbsent (l : List String) (x : String) : List String :=
  if x ∈ l then l else l ++ [x]

/-- `NGADownloader.is_public_domain`.  `uuid` is the image uuid argument
(empty string for the Python empty default), `page` the object-page fetch
outcome, `iiifOk` whether the IIIF HEAD request returned status 200. -/
def nga_is_public_domain (cache : NGACache) (object_id uuid : String)
    (page : NGAPage) (iiifOk : Bool) : Bool × NGACache :=
  if object_id ∈ cache.pd then (true, cache)
  else if object_id ∈ cache.npd then (false, cache)
  else
    let scan : Bool × Bool :=
      match page with
      | .fail => (false, false)
      | .ok t =>
          if ngaNegAny t then (false, true)
          else if ngaPosAny t then (true, false)
          else (false, false)
    if scan.2 then (false, { cache with npd := addIfAbsent cache.npd object_id })
    else if scan.1 && !(uuid == "") then
      if iiifOk then (true, { cache with pd := addIfAbsent cache.pd object_id })
      else (false, { cache with npd := addIfAbsent cache.npd object_id })
    else if scan.1 then (true, { cache with pd := addIfAbsent cache.pd object_id })
    else (false, { cache with npd := addIfAbsent cache.npd object_id })

theorem mem_addIfAbsent_self (l : List String) (x : String) : x ∈ addIfAbsent l x := by
  unfold addIfAbsent
  split
  · assumption
  · simp

theorem nga_ipd_eq_fail (cache : NGACache) (object_id uuid : String) (iiifOk : Bool)
    (hpd : object_id ∉ cache.pd) (hnpd : object_id ∉ cache.npd) :
    nga_is_public_domain cache object_id uuid NGAPage.fail iiifOk =
      (false, { cache with npd := addIfAbsent cache.npd object_id }) := by
  unfold nga_is_public_domain
  rw [if_neg hpd, if_neg hnpd]
  rfl

theorem nga_ipd_eq_neg (cache : NGACache) (object_id uuid t : String) (iiifOk : Bool)
    (hpd : object_id ∉ cache.pd) (hnpd : object_id ∉ cache.npd)
    (hneg : ngaNegAny t = true) :
    nga_is_public_domain cache object_id uuid (NGAPage.ok t) iiifOk =
      (false, { cache with npd := addIfAbsent cache.npd object_id }) := by
  unfold nga_is_public_domain
  rw [if_neg hpd, if_neg hnpd]
  simp [hneg]

theorem nga_ipd_eq_none (cache : NGACache) (object_id uuid t : String) (iiifOk : Bool)
    (hpd : object_id ∉ cache.pd) (hnpd : object_id ∉ cache.npd)
    (hneg : ngaNegAny t = false) (hpos : ngaPosAny t = false) :
    nga_is_public_domain cache object_id uuid (NGAPage.ok t) iiifOk =
      (false, { cache with npd := addIfAbsent cache.npd object_id }) := by
  unfold nga_is_public_domain
  rw [if_neg hpd, if_neg hnpd]
  simp [hneg, hpos]

theorem nga_ipd_eq_pos_nouuid (cache : NGACache) (object_id t : String) (iiifOk : Bool)
    (hpd : object_id ∉ cache.pd) (hnpd : object_id ∉ cache.npd)
    (hneg : ngaNegAny t = false) (hpos : ngaPosAny t = true) :
    nga_is_public_domain cache object_id "" (NGAPage.ok t) iiifOk =
      (true, { cache with pd := addIfAbsent cache.pd object_id }) := by
  unfold nga_is_public_domain
  rw [if_neg hpd, if_neg hnpd]
  simp [hneg, hpos]

theorem nga_ipd_eq_pos_uuid_ok (cache : NGACache) (object_id uuid t : String)
    (hpd : object_id ∉ cache.pd) (hnpd : object_id ∉ cache.npd)
    (hneg : ngaNegAny t = false) (hpos : ngaPosAny t = true) (huuid : uuid ≠ "") :
    nga_is_public_domain cache object_id uuid (NGAPage.ok t) true =
      (true, { cache with pd := addIfAbsent cache.pd object_id }) := by
  unfold nga_is_public_domain
  rw [if_neg hpd, if_neg hnpd]
  simp [hneg, hpos, huuid]

theorem nga_ipd_eq_pos_uuid_bad (cache : NGACache) (object_id uuid t : String)
    (hpd : object_id ∉ cache.pd) (hnpd : object_id ∉ cache.npd)
    (hneg : ngaNegAny t = false) (hpos : ngaPosAny t = true) (huuid : uuid ≠ "") :
    nga_is_public_domain cache object_id uuid (NGAPage.ok t) false =
      (false, { cache with npd := addIfAbsent cache.npd object_id }) := by
  unfold nga_is_public_domain
  rw [if_neg hpd, if_neg hnpd]
  simp [hneg, hpos, huuid]

/-- C2. For an id in neither cache: the verdict is `true` only when the page
came back with some positive phrase and no negative phrase (negatives are
checked first); whenever that condition fails — no phrase found, a negative
phrase found, or the page not fetched — the verdict is `false` and the id is
recorded in the negative cache. -/
theorem c2_nga_is_public_domain_default_reject
    (cache : NGACache) (object_id uuid : String) (page : NGAPage) (iiifOk : Bool)
    (hpd : object_id ∉ cache.pd) (hnpd : object_id ∉ cache.npd) :
    ((nga_is_public_domain cache object_id uuid page iiifOk).1 = true →
      ∃ t, page = NGAPage.ok t ∧ ngaPosAny t = true ∧ ngaNegAny t = false) ∧
    ((¬ ∃ t, page = NGAPage.ok t ∧ ngaPosAny t = true ∧ ngaNegAny t = false) →
      (nga_is_public_domain cache object_id uuid page iiifOk).1 = false ∧
        object_id ∈ (nga_is_public_domain cache object_id uuid page iiifOk).2.npd) := by
  cases page with
  | fail =>
    rw [nga_ipd_eq_fail cache object_id uuid iiifOk hpd hnpd]
    refine ⟨fun h => absurd h (by simp), fun _ => ⟨rfl, mem_addIfAbsent_self cache.npd object_id⟩⟩
  | ok t =>
    by_cases hneg : ngaNegAny t = true
    · rw [nga_ipd_eq_neg cache object_id uuid t iiifOk hpd hnpd hneg]
      refine ⟨fun h => absurd h (by simp), ?_⟩
      intro _
      exact ⟨rfl, mem_addIfAbsent_self cache.npd object_id⟩
    · have hneg' : ngaNegAny t = false := by
        cases h : ngaNegAny t
        · rfl
        · exact absurd h hneg
      by_cases hpos : ngaPosAny t = true
      · by_cases huuid : uuid = ""
        · subst huuid
          rw [nga_ipd_eq_pos_nouuid cache object_id t iiifOk hpd hnpd hneg' hpos]
          refine ⟨fun _ => ⟨t, rfl, hpos, hneg'⟩, fun hno => absurd ⟨t, rfl, hpos, hneg'⟩ hno⟩
        · cases iiifOk with
          | true =>
            rw [nga_ipd_eq_pos_uuid_ok cache object_id uuid t hpd hnpd hneg' hpos huuid]
            refine ⟨fun _ => ⟨t, rfl, hpos, hneg'⟩, fun hno => absurd ⟨t, rfl, hpos, hneg'⟩ hno⟩
          | false =>
            rw [nga_ipd_eq_pos_uuid_bad cache object_id uuid t hpd hnpd hneg' hpos huuid]
            refine ⟨fun h => absurd h (by simp), ?_⟩
            intro _
            exact ⟨rfl, mem_addIfAbsent_self cache.npd object_id⟩
      · have hpos' : ngaPosAny t = false := by
          cases h : ngaPosAny t
          · rfl
          · exact absurd h hpos
        rw [nga_ipd_eq_none cache object_id uuid t iiifOk hpd hnpd hneg' hpos']
        refine ⟨fun h => absurd h (by simp), ?_⟩
        intro _
        exact ⟨rfl, mem_addIfAbsent_self cache.npd object_id⟩

theorem c2_nga_is_public_domain_default_reject_witness :
    ("7" ∉ (⟨[], []⟩ : NGACache).pd) ∧ ("7" ∉ (⟨[], []⟩ : NGACache).npd) ∧
    ((nga_is_public_domain ⟨[], []⟩ "7" "" (NGAPage.ok "a plain page") true).1 = false ∧
      "7" ∈ (nga_is_public_domain ⟨[], []⟩ "7" "" (NGAPage.ok "a plain page") true).2.npd) := by
  refine ⟨by simp, by simp, ?_⟩
  exact (c2_nga_is_public_domain_default_reject ⟨[], []⟩ "7" "" (NGAPage.ok "a plain page") true
    (by simp) (by simp)).2
    (by
      rintro ⟨t, ht, hpos, -⟩
      cases ht
      exact absurd hpos (by decide))

/-! ### C3: `RijksDownloader.fetch_metadata` (rijksfetch.py, lines 346-402)

On a parsed detail response the function requires a `webImage` with a
non-empty `url` and a null `copyrightHolder`; otherwise it blacklists the
object number and returns `None`.  The embedding models the parsed
`artObject` as a record; `webLink` stands for the first truthy of
`links.web` and `web`. -/

/-- The `webImage` sub-object; `url` is `webImage.get("url", "")`. -/
structure RijksWebImage where
  url : String

/-- The parsed `artObject` of a Rijksmuseum detail response (the fields the
function reads). -/
structure RijksArtObject where
  webImage : Option RijksWebImage
  copyrightHolder : Option String
  objectNumber : Option String
  webLink : Option String

/-- The value returned on success: the art object plus the two keys the
function writes into it (`isPublicDomain`, `objectURL`). -/
structure RijksArtData where
  art : RijksArtObject
  isPublicDomain : Bool
  objectURL : Option String

/-- `RijksDownloader.add_to_blacklist` (rijksfetch.py, lines 249-271): append the
object number when absent and re-sort lexicographically (plain `sorted`). -/
def rijks_add_to_blacklist (current : List String) (object_number : String) :
    Bool × List String :=
  if object_number ∈ current then (false, current)
  else (true, (current ++ [object_number]).mergeSort (fun a b => decide (a ≤ b)))

/-- The `objectURL` computed by `fetch_metadata`. -/
def rijks_object_url (data : RijksArtObject) : Option String :=
  match data.webLink with
  | some u => some u
  | none => data.objectNumber.map
      (fun oid => "https://www.rijksmuseum.nl/en/collection/" ++ oid)

/-- `RijksDownloader.fetch_metadata`, for a detail response that parsed as
JSON with art object `data`.  Returns the fetched value and the blacklist
file state. -/
def rijks_fetch_metadata (blacklist : List String) (object_number : String)
    (data : RijksArtObject) : Option RijksArtData × List String :=
  let has_image : Bool := match data.webImage with
    | some w => w.url != ""
    | none => false
  let no_copyright : Bool := decide (data.copyrightHolder = none)
  let is_public_domain := has_image && no_copyright
  let object_url := rijks_object_url data
  if !has_image then (none, (rijks_add_to_blacklist blacklist object_number).2)
  else if !is_public_domain then (none, (rijks_add_to_blacklist blacklist object_number).2)
  else (some ⟨data, is_public_domain, object_url⟩, blacklist)

theorem mem_rijks_add_to_blacklist_self (current : List String) (object_number : String) :
    object_number ∈ (rijks_add_to_blacklist current object_number).2 := by
  unfold rijks_add_to_blacklist
  split
  · assumption
  · simp [List.mem_mergeSort]

theorem rijks_fm_eq_noimage (blacklist : List String) (object_number : String)
    (data : RijksArtObject) (h : data.webImage = none) :
    rijks_fetch_metadata blacklist object_number data =
      (none, (rijks_add_to_blacklist blacklist object_number).2) := by
  unfold rijks_fetch_metadata
  simp [h]

theorem rijks_fm_eq_emptyurl (blacklist : List String) (object_number : String)
    (data : RijksArtObject) (w : RijksWebImage) (h : data.webImage = some w)
    (hu : w.url = "") :
    rijks_fetch_metadata blacklist object_number data =
      (none, (rijks_add_to_blacklist blacklist object_number).2) := by
  unfold rijks_fetch_metadata
  simp [h, hu]

theorem rijks_fm_eq_copyright (blacklist : List String) (object_number : String)
    (data : RijksArtObject) (w : RijksWebImage) (c : String)
    (h : data.webImage = some w) (hu : w.url ≠ "") (hc : data.copyrightHolder = some c) :
    rijks_fetch_metadata blacklist object_number data =
      (none, (rijks_add_to_blacklist blacklist object_number).2) := by
  unfold rijks_fetch_metadata
  simp [h, hu, hc]

theorem rijks_fm_eq_ok (blacklist : List String) (object_number : String)
    (data : RijksArtObject) (w : RijksWebImage)
    (h : data.webImage = some w) (hu : w.url ≠ "") (hc : data.copyrightHolder = none) :
    rijks_fetch_metadata blacklist object_number data =
      (some ⟨data, true, rijks_object_url data⟩, blacklist) := by
  unfold rijks_fetch_metadata
  simp [h, hu, hc]

/-- C3. For every parsed detail response: `fetch_metadata` returns the artwork
data exactly when the object has a `webImage` with a non-empty url and a null
`copyrightHolder`; in every other case the object number is added to the
blacklist and `None` is returned. -/
theorem c3_rijks_fetch_metadata_public_domain_gate
    (blacklist : List String) (object_number : String) (data : RijksArtObject) :
    ((rijks_fetch_metadata blacklist object_number data).1.isSome ↔
      ((∃ w, data.webImage = some w ∧ w.url ≠ "") ∧ data.copyrightHolder = none)) ∧
    ((rijks_fetch_metadata blacklist object_number data).1 = none →
      (rijks_fetch_metadata blacklist object_number data).2 =
          (rijks_add_to_blacklist blacklist object_number).2 ∧
        object_number ∈ (rijks_fetch_metadata blacklist object_number data).2) := by
  cases h : data.webImage with
  | none =>
    rw [rijks_fm_eq_noimage blacklist object_number data h]
    refine ⟨?_, ?_⟩
    · simp
    · intro _
      exact ⟨rfl, mem_rijks_add_to_blacklist_self blacklist object_number⟩
  | some w =>
    by_cases hu : w.url = ""
    · rw [rijks_fm_eq_emptyurl blacklist object_number data w h hu]
      refine ⟨?_, ?_⟩
      · simp only [Option.isSome_none, Bool.false_eq_true, false_iff, not_and]
        rintro ⟨w', hw', hu'⟩
        cases hw'
        exact absurd hu hu'
      · intro _
        exact ⟨rfl, mem_rijks_add_to_blacklist_self blacklist object_number⟩
    · cases hc : data.copyrightHolder with
      | some c =>
        rw [rijks_fm_eq_copyright blacklist object_number data w c h hu hc]
        refine ⟨?_, ?_⟩
        · simp
        · intro _
          exact ⟨rfl, mem_rijks_add_to_blacklist_self blacklist object_number⟩
      | none =>
        rw [rijks_fm_eq_ok blacklist object_number data w h hu hc]
        refine ⟨?_, ?_⟩
        · simp only [Option.isSome_some, true_iff]
          exact ⟨⟨w, rfl, hu⟩, by simp⟩
        · intro hnone
          simp at hnone

/-- Witness for C3: an art object with no web image is blacklisted and yields
`None`. -/
theorem c3_rijks_fetch_metadata_public_domain_gate_witness :
    (rijks_fetch_metadata [] "SK-C-5" ⟨none, none, none, none⟩).1 = none ∧
      "SK-C-5" ∈ (rijks_fetch_metadata [] "SK-C-5" ⟨none, none, none, none⟩).2 := by
  refine ⟨rfl, ?_⟩
  exact ((c3_rijks_fetch_metadata_public_domain_gate [] "SK-C-5"
    ⟨none, none, none, none⟩).2 rfl).2

/-! ### C4: bounded pagination in chicfetch.py and rijksfetch.py

Each search loop is embedded as a recursive function over an arbitrary
response stream `resp : Nat → _` (the answer the API gives for each page
number).  Besides the collected ids and the `pages_fetched` counter, the
embedding returns the trace `requested` of page numbers actually requested,
so that "fetches at most N pages" and "stops once the collected ids reach
the cap" are statable. -/

/-- chicfetch.py pagination configuration. -/
def CHIC_SEARCH_PAGE_LIMIT : Nat := 100

/-- chicfetch.py `MAX_SEARCH_PAGES`. -/
def CHIC_MAX_SEARCH_PAGES : Nat := 10

/-- chicfetch.py `MAX_SEARCH_RESULTS_CAP`. -/
def CHIC_MAX_SEARCH_RESULTS_CAP : Nat := 5000

/-- rijksfetch.py `SEARCH_PAGE_LIMIT`. -/
def RIJKS_SEARCH_PAGE_LIMIT : Nat := 100

/-- rijksfetch.py `MAX_SEARCH_PAGES`. -/
def RIJKS_MAX_SEARCH_PAGES : Nat := 100

/-- rijksfetch.py `MAX_SEARCH_RESULTS_CAP`. -/
def RIJKS_MAX_SEARCH_RESULTS_CAP : Nat := 5000

/-- One ARTIC search response: `err` is a network or parse exception (the
whole search then returns `[]`), `bad502` a 502 status (break), and `ok`
carries the extracted hit ids plus the optional pagination block
`(current_page, total_pages)`. -/
inductive ChicResp where
  | err
  | bad502
  | ok (ids : List Nat) (pagination : Option (Nat × Nat))

/-- The ids a response contributes to `all_ids`. -/
def chicRespIds (r : ChicResp) : List Nat :=
  match r with
  | .ok ids _ => ids
  | _ => []

/-- Result of a search: collected unique ids, the `pages_fetched` counter,
and the trace of page numbers requested. -/
structure SearchRun (α : Type) where
  ids : List α
  pages_fetched : Nat
  requested : List Nat

/-- The `while True` pagination loop of `ChicDownloader.fetch_available_artworks`
(chicfetch.py, lines 219-299), from the state (next page, pages fetched so
far, ids collected so far). -/
def chic_fetch_loop (resp : Nat → ChicResp) (page pages_fetched : Nat)
    (all_ids : List Nat) : SearchRun Nat :=
  match resp page with
  | .err => ⟨[], pages_fetched, [page]⟩
  | .bad502 => ⟨all_ids.dedup, pages_fetched, [page]⟩
  | .ok ids pg =>
    let all2 := all_ids ++ ids
    if (all2).length ≥ CHIC_MAX_SEARCH_RESULTS_CAP then ⟨all2.dedup, pages_fetched + 1, [page]⟩
    else
      match pg with
      | some cp =>
        if cp.1 ≥ cp.2 then ⟨all2.dedup, pages_fetched + 1, [page]⟩
        else if _h : pages_fetched + 1 ≥ CHIC_MAX_SEARCH_PAGES then
          ⟨all2.dedup, pages_fetched + 1, [page]⟩
        else
          let r := chic_fetch_loop resp (page + 1) (pages_fetched + 1) all2
          ⟨r.ids, r.pages_fetched, page :: r.requested⟩
      | none =>
        if ids.length < CHIC_SEARCH_PAGE_LIMIT then ⟨all2.dedup, pages_fetched + 1, [page]⟩
        else if _h : pages_fetched + 1 ≥ CHIC_MAX_SEARCH_PAGES then
          ⟨all2.dedup, pages_fetched + 1, [page]⟩
        else
          let r := chic_fetch_loop resp (page + 1) (pages_fetched + 1) all2
          ⟨r.ids, r.pages_fetched, page :: r.requested⟩
termination_by CHIC_MAX_SEARCH_PAGES - pages_fetched
decreasing_by
  · omega
  · omega

/-- `ChicDownloader.fetch_available_artworks`: the loop started at page 1 with
nothing fetched. -/
def chic_fetch_available_artworks (resp : Nat → ChicResp) : SearchRun Nat :=
  chic_fetch_loop resp 1 0 []

/-- One Rijksmuseum search item: its `objectNumber` and whether it has a
truthy `webImage`. -/
structure RijksSearchItem where
  objectNumber : String
  webImage : Bool

/-- One Rijksmuseum search response: network exception, 502 status, non-JSON
body, or the parsed `artObjects` list. -/
inductive RijksResp where
  | err
  | bad502
  | nonJson
  | ok (artObjects : List RijksSearchItem)

/-- The object numbers a response contributes (items with a web image). -/
def rijksRespIds (r : RijksResp) : List String :=
  match r with
  | .ok objs => (objs.filter (fun o => o.webImage)).map (fun o => o.objectNumber)
  | _ => []

/-- The `while page <= MAX_SEARCH_PAGES` loop of
`RijksDownloader.fetch_available_artworks` (rijksfetch.py, lines 274-343). -/
def rijks_fetch_loop (resp : Nat → RijksResp) (page pages_fetched : Nat)
    (all_ids : List String) : SearchRun String :=
  if _h : page ≤ RIJKS_MAX_SEARCH_PAGES then
    match resp page with
    | .err => ⟨[], pages_fetched, [page]⟩
    | .bad502 => ⟨all_ids.dedup, pages_fetched, [page]⟩
    | .nonJson => ⟨all_ids.dedup, pages_fetched, [page]⟩
    | .ok objs =>
      let ids := (objs.filter (fun o => o.webImage)).map (fun o => o.objectNumber)
      let all2 := all_ids ++ ids
      if (all2).length ≥ RIJKS_MAX_SEARCH_RESULTS_CAP then ⟨all2.dedup, pages_fetched + 1, [page]⟩
      else if objs.length < RIJKS_SEARCH_PAGE_LIMIT then ⟨all2.dedup, pages_fetched + 1, [page]⟩
      else
        let r := rijks_fetch_loop resp (page + 1) (pages_fetched + 1) all2
        ⟨r.ids, r.pages_fetched, page :: r.requested⟩
  else ⟨all_ids.dedup, pages_fetched, []⟩
termination_by RIJKS_MAX_SEARCH_PAGES + 1 - page
decreasing_by omega

/-- `RijksDownloader.fetch_available_artworks`: the loop started at page 1. -/
def rijks_fetch_available_artworks (resp : Nat → RijksResp) : SearchRun String :=
  rijks_fetch_loop resp 1 0 []

theorem append_cons_eq_singleton {α : Type} {pre rest : List α} {q a : α}
    (h : pre ++ q :: rest = [a]) : rest = [] := by
  cases pre with
  | nil => simp at h; exact h.2
  | cons x pre' => simp at h


theorem chic_loop_eq_err (resp : Nat → ChicResp) (page pf : Nat) (all : List Nat)
    (hresp : resp page = ChicResp.err) :
    chic_fetch_loop resp page pf all = ⟨[], pf, [page]⟩ := by
  rw [chic_fetch_loop.eq_def, hresp]

theorem chic_loop_eq_502 (resp : Nat → ChicResp) (page pf : Nat) (all : List Nat)
    (hresp : resp page = ChicResp.bad502) :
    chic_fetch_loop resp page pf all = ⟨all.dedup, pf, [page]⟩ := by
  rw [chic_fetch_loop.eq_def, hresp]

theorem chic_loop_eq_cap (resp : Nat → ChicResp) (page pf : Nat) (all ids : List Nat)
    (pg : Option (Nat × Nat)) (hresp : resp page = ChicResp.ok ids pg)
    (hcap : (all ++ ids).length ≥ CHIC_MAX_SEARCH_RESULTS_CAP) :
    chic_fetch_loop resp page pf all = ⟨(all ++ ids).dedup, pf + 1, [page]⟩ := by
  rw [chic_fetch_loop.eq_def, hresp]
  dsimp only
  rw [if_pos hcap]

theorem chic_loop_eq_lastpage (resp : Nat → ChicResp) (page pf : Nat) (all ids : List Nat)
    (cp : Nat × Nat) (hresp : resp page = ChicResp.ok ids (some cp))
    (hcap : ¬ (all ++ ids).length ≥ CHIC_MAX_SEARCH_RESULTS_CAP)
    (hge : cp.1 ≥ cp.2) :
    chic_fetch_loop resp page pf all = ⟨(all ++ ids).dedup, pf + 1, [page]⟩ := by
  rw [chic_fetch_loop.eq_def, hresp]
  dsimp only
  rw [if_neg hcap, if_pos hge]

theorem chic_loop_eq_pagecap (resp : Nat → ChicResp) (page pf : Nat) (all ids : List Nat)
    (cp : Nat × Nat) (hresp : resp page = ChicResp.ok ids (some cp))
    (hcap : ¬ (all ++ ids).length ≥ CHIC_MAX_SEARCH_RESULTS_CAP)
    (hge : ¬ cp.1 ≥ cp.2) (hpages : pf + 1 ≥ CHIC_MAX_SEARCH_PAGES) :
    chic_fetch_loop resp page pf all = ⟨(all ++ ids).dedup, pf + 1, [page]⟩ := by
  rw [chic_fetch_loop.eq_def, hresp]
  dsimp only
  rw [if_neg hcap, if_neg hge, dif_pos hpages]

theorem chic_loop_eq_next (resp : Nat → ChicResp) (page pf : Nat) (all ids : List Nat)
    (cp : Nat × Nat) (hresp : resp page = ChicResp.ok ids (some cp))
    (hcap : ¬ (all ++ ids).length ≥ CHIC_MAX_SEARCH_RESULTS_CAP)
    (hge : ¬ cp.1 ≥ cp.2) (hpages : ¬ pf + 1 ≥ CHIC_MAX_SEARCH_PAGES) :
    chic_fetch_loop resp page pf all =
      ⟨(chic_fetch_loop resp (page + 1) (pf + 1) (all ++ ids)).ids,
        (chic_fetch_loop resp (page + 1) (pf + 1) (all ++ ids)).pages_fetched,
        page :: (chic_fetch_loop resp (page + 1) (pf + 1) (all ++ ids)).requested⟩ := by
  rw [chic_fetch_loop.eq_def, hresp]
  dsimp only
  rw [if_neg hcap, if_neg hge, dif_neg hpages]

theorem chic_loop_eq_short (resp : Nat → ChicResp) (page pf : Nat) (all ids : List Nat)
    (hresp : resp page = ChicResp.ok ids none)
    (hcap : ¬ (all ++ ids).length ≥ CHIC_MAX_SEARCH_RESULTS_CAP)
    (hshort : ids.length < CHIC_SEARCH_PAGE_LIMIT) :
    chic_fetch_loop resp page pf all = ⟨(all ++ ids).dedup, pf + 1, [page]⟩ := by
  rw [chic_fetch_loop.eq_def, hresp]
  dsimp only
  rw [if_neg hcap, if_pos hshort]

theorem chic_loop_eq_pagecap2 (resp : Nat → ChicResp) (page pf : Nat) (all ids : List Nat)
    (hresp : resp page = ChicResp.ok ids none)
    (hcap : ¬ (all ++ ids).length ≥ CHIC_MAX_SEARCH_RESULTS_CAP)
    (hshort : ¬ ids.length < CHIC_SEARCH_PAGE_LIMIT)
    (hpages : pf + 1 ≥ CHIC_MAX_SEARCH_PAGES) :
    chic_fetch_loop resp page pf all = ⟨(all ++ ids).dedup, pf + 1, [page]⟩ := by
  rw [chic_fetch_loop.eq_def, hresp]
  dsimp only
  rw [if_neg hcap, if_neg hshort, dif_pos hpages]

theorem chic_loop_eq_next2 (resp : Nat → ChicResp) (page pf : Nat) (all ids : List Nat)
    (hresp : resp page = ChicResp.ok ids none)
    (hcap : ¬ (all ++ ids).length ≥ CHIC_MAX_SEARCH_RESULTS_CAP)
    (hshort : ¬ ids.length < CHIC_SEARCH_PAGE_LIMIT)
    (hpages : ¬ pf + 1 ≥ CHIC_MAX_SEARCH_PAGES) :
    chic_fetch_loop resp page pf all =
      ⟨(chic_fetch_loop resp (page + 1) (pf + 1) (all ++ ids)).ids,
        (chic_fetch_loop resp (page + 1) (pf + 1) (all ++ ids)).pages_fetched,
        page :: (chic_fetch_loop resp (page + 1) (pf + 1) (all ++ ids)).requested⟩ := by
  rw [chic_fetch_loop.eq_def, hresp]
  dsimp only
  rw [if_neg hcap, if_neg hshort, dif_neg hpages]

theorem chic_loop_requested_length (resp : Nat → ChicResp) (page pf : Nat) (all : List Nat) :
    pf < CHIC_MAX_SEARCH_PAGES →
    (chic_fetch_loop resp page pf all).requested.length ≤ CHIC_MAX_SEARCH_PAGES - pf := by
  induction page, pf, all using chic_fetch_loop.induct resp with
  | case1 page pf all hresp =>
    intro hpf
    rw [chic_loop_eq_err resp page pf all hresp]
    simp only [List.length_cons, List.length_nil]
    omega
  | case2 page pf all hresp =>
    intro hpf
    rw [chic_loop_eq_502 resp page pf all hresp]
    simp only [List.length_cons, List.length_nil]
    omega
  | case3 page pf all ids pg hresp all2 hcap =>
    intro hpf
    rw [chic_loop_eq_cap resp page pf all ids pg hresp hcap]
    simp only [List.length_cons, List.length_nil]
    omega
  | case4 page pf all ids all2 hcap cp hge hresp =>
    intro hpf
    rw [chic_loop_eq_lastpage resp page pf all ids cp hresp hcap hge]
    simp only [List.length_cons, List.length_nil]
    omega
  | case5 page pf all ids all2 hcap cp hge hpages hresp =>
    intro hpf
    rw [chic_loop_eq_pagecap resp page pf all ids cp hresp hcap hge hpages]
    simp only [List.length_cons, List.length_nil]
    omega
  | case6 page pf all ids all2 hcap cp hge hpages hresp ih =>
    intro hpf
    have hall2 : all2 = all ++ ids := rfl
    rw [hall2] at ih
    have hih := ih (by omega)
    rw [chic_loop_eq_next resp page pf all ids cp hresp hcap hge hpages]
    simp only [List.length_cons]
    omega
  | case7 page pf all ids all2 hcap hshort hresp =>
    intro hpf
    rw [chic_loop_eq_short resp page pf all ids hresp hcap hshort]
    simp only [List.length_cons, List.length_nil]
    omega
  | case8 page pf all ids all2 hcap hshort hpages hresp =>
    intro hpf
    rw [chic_loop_eq_pagecap2 resp page pf all ids hresp hcap hshort hpages]
    simp only [List.length_cons, List.length_nil]
    omega
  | case9 page pf all ids all2 hcap hshort hpages hresp ih =>
    intro hpf
    have hall2 : all2 = all ++ ids := rfl
    rw [hall2] at ih
    have hih := ih (by omega)
    rw [chic_loop_eq_next2 resp page pf all ids hresp hcap hshort hpages]
    simp only [List.length_cons]
    omega

theorem chic_loop_cap (resp : Nat → ChicResp) (page pf : Nat) (all : List Nat) :
    ∀ pre q rest, (chic_fetch_loop resp page pf all).requested = pre ++ q :: rest →
      rest ≠ [] →
      all.length + ((pre ++ [q]).map (fun x => (chicRespIds (resp x)).length)).sum <
        CHIC_MAX_SEARCH_RESULTS_CAP := by
  induction page, pf, all using chic_fetch_loop.induct resp with
  | case1 page pf all hresp =>
    intro pre q rest hreq hrest
    rw [chic_loop_eq_err resp page pf all hresp] at hreq
    exact absurd (append_cons_eq_singleton hreq.symm) hrest
  | case2 page pf all hresp =>
    intro pre q rest hreq hrest
    rw [chic_loop_eq_502 resp page pf all hresp] at hreq
    exact absurd (append_cons_eq_singleton hreq.symm) hrest
  | case3 page pf all ids pg hresp all2 hcap =>
    intro pre q rest hreq hrest
    rw [chic_loop_eq_cap resp page pf all ids pg hresp hcap] at hreq
    exact absurd (append_cons_eq_singleton hreq.symm) hrest
  | case4 page pf all ids all2 hcap cp hge hresp =>
    intro pre q rest hreq hrest
    rw [chic_loop_eq_lastpage resp page pf all ids cp hresp hcap hge] at hreq
    exact absurd (append_cons_eq_singleton hreq.symm) hrest
  | case5 page pf all ids all2 hcap cp hge hpages hresp =>
    intro pre q rest hreq hrest
    rw [chic_loop_eq_pagecap resp page pf all ids cp hresp hcap hge hpages] at hreq
    exact absurd (append_cons_eq_singleton hreq.symm) hrest
  | case6 page pf all ids all2 hcap cp hge hpages hresp ih =>
    intro pre q rest hreq hrest
    have hall2 : all2 = all ++ ids := rfl
    rw [hall2] at ih
    rw [chic_loop_eq_next resp page pf all ids cp hresp hcap hge hpages] at hreq
    have hlen := List.length_append all ids
    have hcap2 : ¬ (all ++ ids).length ≥ CHIC_MAX_SEARCH_RESULTS_CAP := hcap
    cases pre with
    | nil =>
      simp only [List.nil_append] at hreq
      have h1 : page = q := by
        have := congrArg (fun l => List.head? l) hreq
        simpa using this
      subst h1
      simp only [List.nil_append, List.map_cons, List.map_nil, List.sum_cons, List.sum_nil,
        chicRespIds, hresp]
      omega
    | cons x pre' =>
      simp only [List.cons_append] at hreq
      have h1 : page = x := by
        have := congrArg (fun l => List.head? l) hreq
        simpa using this
      subst h1
      have h2 : (chic_fetch_loop resp (page + 1) (pf + 1) (all ++ ids)).requested =
          pre' ++ q :: rest := by
        have := congrArg List.tail hreq
        simpa using this
      have hIH := ih pre' q rest h2 hrest
      simp only [List.cons_append, List.map_cons, List.sum_cons, chicRespIds, hresp] at hIH ⊢
      omega
  | case7 page pf all ids all2 hcap hshort hresp =>
    intro pre q rest hreq hrest
    rw [chic_loop_eq_short resp page pf all ids hresp hcap hshort] at hreq
    exact absurd (append_cons_eq_singleton hreq.symm) hrest
  | case8 page pf all ids all2 hcap hshort hpages hresp =>
    intro pre q rest hreq hrest
    rw [chic_loop_eq_pagecap2 resp page pf all ids hresp hcap hshort hpages] at hreq
    exact absurd (append_cons_eq_singleton hreq.symm) hrest
  | case9 page pf all ids all2 hcap hshort hpages hresp ih =>
    intro pre q rest hreq hrest
    have hall2 : all2 = all ++ ids := rfl
    rw [hall2] at ih
    rw [chic_loop_eq_next2 resp page pf all ids hresp hcap hshort hpages] at hreq
    have hlen := List.length_append all ids
    have hcap2 : ¬ (all ++ ids).length ≥ CHIC_MAX_SEARCH_RESULTS_CAP := hcap
    cases pre with
    | nil =>
      simp only [List.nil_append] at hreq
      have h1 : page = q := by
        have := congrArg (fun l => List.head? l) hreq
        simpa using this
      subst h1
      simp only [List.nil_append, List.map_cons, List.map_nil, List.sum_cons, List.sum_nil,
        chicRespIds, hresp]
      omega
    | cons x pre' =>
      simp only [List.cons_append] at hreq
      have h1 : page = x := by
        have := congrArg (fun l => List.head? l) hreq
        simpa using this
      subst h1
      have h2 : (chic_fetch_loop resp (page + 1) (pf + 1) (all ++ ids)).requested =
          pre' ++ q :: rest := by
        have := congrArg List.tail hreq
        simpa using this
      have hIH := ih pre' q rest h2 hrest
      simp only [List.cons_append, List.map_cons, List.sum_cons, chicRespIds, hresp] at hIH ⊢
      omega

theorem rijks_loop_eq_out (resp : Nat → RijksResp) (page pf : Nat) (all : List String)
    (hpage : ¬ page ≤ RIJKS_MAX_SEARCH_PAGES) :
    rijks_fetch_loop resp page pf all = ⟨all.dedup, pf, []⟩ := by
  rw [rijks_fetch_loop.eq_def, dif_neg hpage]

theorem rijks_loop_eq_err (resp : Nat → RijksResp) (page pf : Nat) (all : List String)
    (hpage : page ≤ RIJKS_MAX_SEARCH_PAGES) (hresp : resp page = RijksResp.err) :
    rijks_fetch_loop resp page pf all = ⟨[], pf, [page]⟩ := by
  rw [rijks_fetch_loop.eq_def, dif_pos hpage, hresp]

theorem rijks_loop_eq_502 (resp : Nat → RijksResp) (page pf : Nat) (all : List String)
    (hpage : page ≤ RIJKS_MAX_SEARCH_PAGES) (hresp : resp page = RijksResp.bad502) :
    rijks_fetch_loop resp page pf all = ⟨all.dedup, pf, [page]⟩ := by
  rw [rijks_fetch_loop.eq_def, dif_pos hpage, hresp]

theorem rijks_loop_eq_nonjson (resp : Nat → RijksResp) (page pf : Nat) (all : List String)
    (hpage : page ≤ RIJKS_MAX_SEARCH_PAGES) (hresp : resp page = RijksResp.nonJson) :
    rijks_fetch_loop resp page pf all = ⟨all.dedup, pf, [page]⟩ := by
  rw [rijks_fetch_loop.eq_def, dif_pos hpage, hresp]

theorem rijks_loop_eq_cap (resp : Nat → RijksResp) (page pf : Nat) (all : List String)
    (objs : List RijksSearchItem)
    (hpage : page ≤ RIJKS_MAX_SEARCH_PAGES) (hresp : resp page = RijksResp.ok objs)
    (hcap : (all ++ (objs.filter (fun o => o.webImage)).map (fun o => o.objectNumber)).length ≥
      RIJKS_MAX_SEARCH_RESULTS_CAP) :
    rijks_fetch_loop resp page pf all =
      ⟨(all ++ (objs.filter (fun o => o.webImage)).map (fun o => o.objectNumber)).dedup,
        pf + 1, [page]⟩ := by
  rw [rijks_fetch_loop.eq_def, dif_pos hpage, hresp]
  dsimp only
  rw [if_pos hcap]

theorem rijks_loop_eq_short (resp : Nat → RijksResp) (page pf : Nat) (all : List String)
    (objs : List RijksSearchItem)
    (hpage : page ≤ RIJKS_MAX_SEARCH_PAGES) (hresp : resp page = RijksResp.ok objs)
    (hcap : ¬ (all ++ (objs.filter (fun o => o.webImage)).map (fun o => o.objectNumber)).length ≥
      RIJKS_MAX_SEARCH_RESULTS_CAP)
    (hshort : objs.length < RIJKS_SEARCH_PAGE_LIMIT) :
    rijks_fetch_loop resp page pf all =
      ⟨(all ++ (objs.filter (fun o => o.webImage)).map (fun o => o.objectNumber)).dedup,
        pf + 1, [page]⟩ := by
  rw [rijks_fetch_loop.eq_def, dif_pos hpage, hresp]
  dsimp only
  rw [if_neg hcap, if_pos hshort]

theorem rijks_loop_eq_next (resp : Nat → RijksResp) (page pf : Nat) (all : List String)
    (objs : List RijksSearchItem)
    (hpage : page ≤ RIJKS_MAX_SEARCH_PAGES) (hresp : resp page = RijksResp.ok objs)
    (hcap : ¬ (all ++ (objs.filter (fun o => o.webImage)).map (fun o => o.objectNumber)).length ≥
      RIJKS_MAX_SEARCH_RESULTS_CAP)
    (hshort : ¬ objs.length < RIJKS_SEARCH_PAGE_LIMIT) :
    rijks_fetch_loop resp page pf all =
      ⟨(rijks_fetch_loop resp (page + 1) (pf + 1)
          (all ++ (objs.filter (fun o => o.webImage)).map (fun o => o.objectNumber))).ids,
        (rijks_fetch_loop resp (page + 1) (pf + 1)
          (all ++ (objs.filter (fun o => o.webImage)).map (fun o => o.objectNumber))).pages_fetched,
        page :: (rijks_fetch_loop resp (page + 1) (pf + 1)
          (all ++ (objs.filter (fun o => o.webImage)).map (fun o => o.objectNumber))).requested⟩ := by
  rw [rijks_fetch_loop.eq_def, dif_pos hpage, hresp]
  dsimp only
  rw [if_neg hcap, if_neg hshort]

theorem rijks_loop_requested_length (resp : Nat → RijksResp) (page pf : Nat)
    (all : List String) :
    (rijks_fetch_loop resp page pf all).requested.length ≤
      RIJKS_MAX_SEARCH_PAGES + 1 - page := by
  induction page, pf, all using rijks_fetch_loop.induct resp with
  | case1 page pf all hpage hresp =>
    rw [rijks_loop_eq_err resp page pf all hpage hresp]
    simp only [List.length_cons, List.length_nil]
    omega
  | case2 page pf all hpage hresp =>
    rw [rijks_loop_eq_502 resp page pf all hpage hresp]
    simp only [List.length_cons, List.length_nil]
    omega
  | case3 page pf all hpage hresp =>
    rw [rijks_loop_eq_nonjson resp page pf all hpage hresp]
    simp only [List.length_cons, List.length_nil]
    omega
  | case4 page pf all hpage objs hresp ids all2 hcap =>
    rw [rijks_loop_eq_cap resp page pf all objs hpage hresp hcap]
    simp only [List.length_cons, List.length_nil]
    omega
  | case5 page pf all hpage objs hresp ids all2 hcap hshort =>
    rw [rijks_loop_eq_short resp page pf all objs hpage hresp hcap hshort]
    simp only [List.length_cons, List.length_nil]
    omega
  | case6 page pf all hpage objs hresp ids all2 hcap hshort ih =>
    have hall2 : all2 = all ++ (objs.filter (fun o => o.webImage)).map (fun o => o.objectNumber) :=
      rfl
    rw [hall2] at ih
    rw [rijks_loop_eq_next resp page pf all objs hpage hresp hcap hshort]
    simp only [List.length_cons]
    omega
  | case7 page pf all hpage =>
    rw [rijks_loop_eq_out resp page pf all hpage]
    simp only [List.length_nil]
    omega

theorem rijks_loop_cap (resp : Nat → RijksResp) (page pf : Nat) (all : List String) :
    ∀ pre q rest, (rijks_fetch_loop resp page pf all).requested = pre ++ q :: rest →
      rest ≠ [] →
      all.length + ((pre ++ [q]).map (fun x => (rijksRespIds (resp x)).length)).sum <
        RIJKS_MAX_SEARCH_RESULTS_CAP := by
  induction page, pf, all using rijks_fetch_loop.induct resp with
  | case1 page pf all hpage hresp =>
    intro pre q rest hreq hrest
    rw [rijks_loop_eq_err resp page pf all hpage hresp] at hreq
    exact absurd (append_cons_eq_singleton hreq.symm) hrest
  | case2 page pf all hpage hresp =>
    intro pre q rest hreq hrest
    rw [rijks_loop_eq_502 resp page pf all hpage hresp] at hreq
    exact absurd (append_cons_eq_singleton hreq.symm) hrest
  | case3 page pf all hpage hresp =>
    intro pre q rest hreq hrest
    rw [rijks_loop_eq_nonjson resp page pf all hpage hresp] at hreq
    exact absurd (append_cons_eq_singleton hreq.symm) hrest
  | case4 page pf all hpage objs hresp ids all2 hcap =>
    intro pre q rest hreq hrest
    rw [rijks_loop_eq_cap resp page pf all objs hpage hresp hcap] at hreq
    exact absurd (append_cons_eq_singleton hreq.symm) hrest
  | case5 page pf all hpage objs hresp ids all2 hcap hshort =>
    intro pre q rest hreq hrest
    rw [rijks_loop_eq_short resp page pf all objs hpage hresp hcap hshort] at hreq
    exact absurd (append_cons_eq_singleton hreq.symm) hrest
  | case6 page pf all hpage objs hresp ids all2 hcap hshort ih =>
    intro pre q rest hreq hrest
    have hall2 : all2 = all ++ (objs.filter (fun o => o.webImage)).map (fun o => o.objectNumber) :=
      rfl
    rw [hall2] at ih
    rw [rijks_loop_eq_next resp page pf all objs hpage hresp hcap hshort] at hreq
    have hlen := List.length_append all
      ((objs.filter (fun o => o.webImage)).map (fun o => o.objectNumber))
    have hcap2 : ¬ (all ++ (objs.filter (fun o => o.webImage)).map
        (fun o => o.objectNumber)).length ≥ RIJKS_MAX_SEARCH_RESULTS_CAP := hcap
    cases pre with
    | nil =>
      simp only [List.nil_append] at hreq
      have h1 : page = q := by
        have := congrArg (fun l => List.head? l) hreq
        simpa using this
      subst h1
      simp only [List.nil_append, List.map_cons, List.map_nil, List.sum_cons, List.sum_nil,
        rijksRespIds, hresp]
      omega
    | cons x pre' =>
      simp only [List.cons_append] at hreq
      have h1 : page = x := by
        have := congrArg (fun l => List.head? l) hreq
        simpa using this
      subst h1
      have h2 : (rijks_fetch_loop resp (page + 1) (pf + 1)
          (all ++ (objs.filter (fun o => o.webImage)).map (fun o => o.objectNumber))).requested =
          pre' ++ q :: rest := by
        have := congrArg List.tail hreq
        simpa using this
      have hIH := ih pre' q rest h2 hrest
      simp only [List.cons_append, List.map_cons, List.sum_cons, rijksRespIds, hresp] at hIH ⊢
      omega
  | case7 page pf all hpage =>
    intro pre q rest hreq hrest
    rw [rijks_loop_eq_out resp page pf all hpage] at hreq
    simp at hreq

/-- C4. Both pagination loops are bounded whatever the API answers: chicfetch
requests at most `MAX_SEARCH_PAGES = 10` pages and rijksfetch at most
`MAX_SEARCH_PAGES = 100` pages, and in either loop a further page is only
requested while the ids collected so far stay below
`MAX_SEARCH_RESULTS_CAP = 5000` (any non-final requested page leaves the
running total under the cap). -/
theorem c4_pagination_bounded (chicResp : Nat → ChicResp) (rijksResp : Nat → RijksResp) :
    (chic_fetch_available_artworks chicResp).requested.length ≤ CHIC_MAX_SEARCH_PAGES ∧
    (rijks_fetch_available_artworks rijksResp).requested.length ≤ RIJKS_MAX_SEARCH_PAGES ∧
    (∀ pre q rest,
        (chic_fetch_available_artworks chicResp).requested = pre ++ q :: rest → rest ≠ [] →
        ((pre ++ [q]).map (fun x => (chicRespIds (chicResp x)).length)).sum <
          CHIC_MAX_SEARCH_RESULTS_CAP) ∧
    (∀ pre q rest,
        (rijks_fetch_available_artworks rijksResp).requested = pre ++ q :: rest → rest ≠ [] →
        ((pre ++ [q]).map (fun x => (rijksRespIds (rijksResp x)).length)).sum <
          RIJKS_MAX_SEARCH_RESULTS_CAP) := by
  refine ⟨?_, ?_, ?_, ?_⟩
  · have h := chic_loop_requested_length chicResp 1 0 [] (by decide)
    simpa using h
  · have h := rijks_loop_requested_length rijksResp 1 0 []
    unfold rijks_fetch_available_artworks
    omega
  · intro pre q rest hreq hrest
    have h := chic_loop_cap chicResp 1 0 [] pre q rest hreq hrest
    simpa using h
  · intro pre q rest hreq hrest
    have h := rijks_loop_cap rijksResp 1 0 [] pre q rest hreq hrest
    simpa using h

/-- A two-page ARTIC response stream used to exercise the C4 bound. -/
def chic_resp_demo : Nat → ChicResp := fun p =>
  if p = 1 then ChicResp.ok [5] (some (1, 2)) else ChicResp.ok [] (some (2, 2))

/-- A two-page Rijksmuseum response stream used to exercise the C4 bound. -/
def rijks_resp_demo : Nat → RijksResp := fun p =>
  if p = 1 then RijksResp.ok (List.replicate 100 ⟨"SK-A-1", true⟩) else RijksResp.ok []

theorem chic_resp_demo_requested :
    (chic_fetch_available_artworks chic_resp_demo).requested = [1, 2] := by
  unfold chic_fetch_available_artworks
  rw [chic_loop_eq_next chic_resp_demo 1 0 [] [5] (1, 2) rfl (by decide) (by decide) (by decide)]
  show 1 :: (chic_fetch_loop chic_resp_demo 2 1 [5]).requested = [1, 2]
  rw [chic_loop_eq_lastpage chic_resp_demo 2 1 [5] [] (2, 2) rfl (by decide) (by decide)]

theorem rijks_resp_demo_requested :
    (rijks_fetch_available_artworks rijks_resp_demo).requested = [1, 2] := by
  unfold rijks_fetch_available_artworks
  rw [rijks_loop_eq_next rijks_resp_demo 1 0 []
    (List.replicate 100 ⟨"SK-A-1", true⟩) (by decide) rfl (by decide) (by decide)]
  show 1 :: (rijks_fetch_loop rijks_resp_demo 2 1
    (([] : List String) ++
      ((List.replicate 100 (⟨"SK-A-1", true⟩ : RijksSearchItem)).filter
        (fun o => o.webImage)).map (fun o => o.objectNumber))).requested = [1, 2]
  rw [rijks_loop_eq_short rijks_resp_demo 2 1 _ [] (by decide) rfl (by decide) (by decide)]

/-- Witness for C4: on concrete two-page response streams the page traces and
the cap statement instantiate. -/
theorem c4_pagination_bounded_witness :
    ((chic_fetch_available_artworks chic_resp_demo).requested = ([] : List Nat) ++ 1 :: [2] ∧
      ([2] : List Nat) ≠ [] ∧
      ((([] : List Nat) ++ [1]).map (fun x => (chicRespIds (chic_resp_demo x)).length)).sum <
        CHIC_MAX_SEARCH_RESULTS_CAP) ∧
    ((rijks_fetch_available_artworks rijks_resp_demo).requested = ([] : List Nat) ++ 1 :: [2] ∧
      ((([] : List Nat) ++ [1]).map (fun x => (rijksRespIds (rijks_resp_demo x)).length)).sum <
        RIJKS_MAX_SEARCH_RESULTS_CAP) := by
  have hc : (chic_fetch_available_artworks chic_resp_demo).requested =
      ([] : List Nat) ++ 1 :: [2] := by simpa using chic_resp_demo_requested
  have hr : (rijks_fetch_available_artworks rijks_resp_demo).requested =
      ([] : List Nat) ++ 1 :: [2] := by simpa using rijks_resp_demo_requested
  refine ⟨⟨hc, by simp, ?_⟩, ⟨hr, ?_⟩⟩
  · exact (c4_pagination_bounded chic_resp_demo rijks_resp_demo).2.2.1 [] 1 [2] hc (by simp)
  · exact (c4_pagination_bounded chic_resp_demo rijks_resp_demo).2.2.2 [] 1 [2] hr (by simp)

/-! ### C9: `add_to_blacklist` in metfetch.py, chicfetch.py and ngafetch.py

All three load the blacklist file, append the id when absent, sort and write
back.  metfetch sorts with `key=int` (a non-numeric entry would raise and
leave the file unchanged), chicfetch falls back to plain `sorted` when the
numeric sort raises, and ngafetch keys with `int(x) if x.isdigit() else x`
(a mixed file makes `sorted` raise, leaving the file unchanged).  `int` is
modelled by `pyInt` on the canonical digit strings the scripts store. -/

/-- `MetDownloader.add_to_blacklist` (metfetch.py, lines 128-156). -/
def met_add_to_blacklist (current : List String) (object_id : Nat) : Bool × List String :=
  let id_str := pyStr object_id
  if id_str ∈ current then (false, current)
  else
    let appended := current ++ [id_str]
    if appended.all isDigitStr then
      (true, appended.mergeSort (fun a b => decide (pyInt a ≤ pyInt b)))
    else (false, current)

/-- `ChicDownloader.add_to_blacklist` (chicfetch.py, lines 130-158): numeric
sort with a plain lexicographic fallback. -/
def chic_add_to_blacklist (current : List String) (object_id : Nat) : Bool × List String :=
  let id_str := pyStr object_id
  if id_str ∈ current then (false, current)
  else
    let appended := current ++ [id_str]
    if appended.all isDigitStr then
      (true, appended.mergeSort (fun a b => decide (pyInt a ≤ pyInt b)))
    else (true, appended.mergeSort (fun a b => decide (a ≤ b)))

/-- `NGADownloader.add_to_blacklist` (ngafetch.py, lines 128-150): key is
`int(x)` for digit strings and `x` otherwise; sorting a mixed list raises,
which the `except` turns into `False` with the file unchanged. -/
def nga_add_to_blacklist (current : List String) (object_id : String) : Bool × List String :=
  if object_id ∈ current then (false, current)
  else
    let appended := current ++ [object_id]
    if appended.all isDigitStr then
      (true, appended.mergeSort (fun a b => decide (pyInt a ≤ pyInt b)))
    else if appended.all (fun s => !(isDigitStr s)) then
      (true, appended.mergeSort (fun a b => decide (a ≤ b)))
    else (false, current)

/-! ### C5: no retry on transient metadata-fetch errors

`fetch_artwork_metadata` in metfetch.py and chicfetch.py performs exactly one
HTTP request; both `except requests.exceptions.RequestException` handlers
return `None` immediately.  The embedding takes the outcome of that single
request.  A claim-side retrying variant is defined for comparison. -/

/-- The fields of a Met object response the fetcher inspects. -/
structure MetObj where
  isPublicDomain : Bool
  primaryImageSmall : String

/-- Outcome of the single object request: parsed 2xx data, an HTTP error
status, or a transient failure (timeout, connection error, bad JSON — all
`RequestException`s). -/
inductive MetHttp where
  | ok (data : MetObj)
  | httpErr (status : Nat)
  | netErr

/-- `MetDownloader.fetch_artwork_metadata` (metfetch.py, lines 254-289). -/
def met_fetch_artwork_metadata (resp : MetHttp) (blacklist : List String) (object_id : Nat) :
    Option MetObj × List String :=
  match resp with
  | .ok data =>
    if !data.isPublicDomain then (none, (met_add_to_blacklist blacklist object_id).2)
    else if data.primaryImageSmall = "" then (none, (met_add_to_blacklist blacklist object_id).2)
    else (some data, blacklist)
  | .httpErr status =>
    if status = 404 ∨ status = 502 then (none, (met_add_to_blacklist blacklist object_id).2)
    else (none, blacklist)
  | .netErr => (none, blacklist)

/-- The field of an ARTIC artwork response the fetcher validates. `image_id`
is the empty string when missing or null. -/
structure ChicObj where
  image_id : String

/-- Outcome of the single ARTIC object request. -/
inductive ChicHttp where
  | ok (data : ChicObj)
  | httpErr (status : Nat)
  | netErr

/-- `ChicDownloader.fetch_artwork_metadata` (chicfetch.py, lines 332-368). -/
def chic_fetch_artwork_metadata (resp : ChicHttp) (blacklist : List String) (object_id : Nat) :
    Option ChicObj × List String :=
  match resp with
  | .ok data =>
    if data.image_id = "" then (none, (chic_add_to_blacklist blacklist object_id).2)
    else (some data, blacklist)
  | .httpErr status =>
    if status = 404 ∨ status = 502 then (none, (chic_add_to_blacklist blacklist object_id).2)
    else (none, blacklist)
  | .netErr => (none, blacklist)

/-- The behaviour claim C5 describes, stated in the claim's own words: a
fetcher that, when the request fails with a transient network error, retries
with the next attempt instead of abandoning the artwork. -/
def met_fetch_metadata_with_retry (attempts : List MetHttp) (blacklist : List String)
    (object_id : Nat) : Option MetObj × List String :=
  match attempts with
  | [] => (none, blacklist)
  | a :: rest =>
    match a with
    | .netErr => met_fetch_metadata_with_retry rest blacklist object_id
    | _ => met_fetch_artwork_metadata a blacklist object_id

/-- Counterexample to C5: after a timeout a second attempt would succeed, and
the claimed retrying behaviour returns the artwork, but the code's
`fetch_artwork_metadata` makes exactly one request and returns `None` — the
artwork is abandoned on the first failure (chicfetch behaves the same). -/
theorem c5_counterexample_no_retry :
    met_fetch_artwork_metadata MetHttp.netErr [] 437133 = (none, []) ∧
    met_fetch_metadata_with_retry [MetHttp.netErr, MetHttp.ok ⟨true, "img.jpg"⟩] [] 437133 =
      (some ⟨true, "img.jpg"⟩, []) ∧
    chic_fetch_artwork_metadata ChicHttp.netErr [] 129884 = (none, []) := by
  refine ⟨rfl, ?_, rfl⟩
  simp [met_fetch_metadata_with_retry, met_fetch_artwork_metadata]

/-- C5 (amended): neither metfetch nor chicfetch retries a metadata request:
on a timeout or connection error `fetch_artwork_metadata` returns `None` with
the blacklist unchanged, and the artwork simply fails for that run. -/
theorem c5_transient_error_abandons (blacklist : List String) (met_id chic_id : Nat) :
    met_fetch_artwork_metadata MetHttp.netErr blacklist met_id = (none, blacklist) ∧
    chic_fetch_artwork_metadata ChicHttp.netErr blacklist chic_id = (none, blacklist) :=
  ⟨rfl, rfl⟩

theorem natDigits_all_digits (n : Nat) :
    (natDigits n).all (fun c => '0' ≤ c && c ≤ '9') = true := by
  have hchar : ∀ d : Nat, d < 10 → ('0' ≤ Char.ofNat (48 + d) && Char.ofNat (48 + d) ≤ '9') = true := by
    intro d hd
    interval_cases d <;> decide
  induction n using Nat.strong_induction_on with
  | _ n ih =>
    unfold natDigits
    split
    · simp only [List.all_cons, List.all_nil, Bool.and_true]
      exact hchar n (by omega)
    · rw [List.all_append, Bool.and_eq_true]
      refine ⟨ih (n / 10) (Nat.div_lt_self (by omega) (by omega)), ?_⟩
      simp only [List.all_cons, List.all_nil, Bool.and_true]
      exact hchar (n % 10) (by omega)

theorem natDigits_ne_nil (n : Nat) : natDigits n ≠ [] := by
  unfold natDigits
  split
  · simp
  · simp

theorem isDigitStr_pyStr (n : Nat) : isDigitStr (pyStr n) = true := by
  have h1 := natDigits_all_digits n
  have h2 := natDigits_ne_nil n
  simp only [isDigitStr, pyStr]
  simp only [Bool.and_eq_true, Bool.not_eq_true']
  exact ⟨by simpa [List.isEmpty_iff] using h2, h1⟩

theorem append_all_digits (current : List String) (id_str : String)
    (hdigits : ∀ s ∈ current, isDigitStr s = true) (hid : isDigitStr id_str = true) :
    (current ++ [id_str]).all isDigitStr = true := by
  rw [List.all_append, Bool.and_eq_true]
  refine ⟨?_, by simpa using hid⟩
  simpa [List.all_eq_true] using hdigits

theorem numeric_mergeSort_spec (l : List String) :
    List.Pairwise (fun a b => pyInt a ≤ pyInt b)
      (l.mergeSort (fun a b => decide (pyInt a ≤ pyInt b))) := by
  have h := @List.sorted_mergeSort String (fun a b => decide (pyInt a ≤ pyInt b))
    (by intro a b c hab hbc; simp only [decide_eq_true_eq] at *; omega)
    (by intro a b; simp only [Bool.or_eq_true, decide_eq_true_eq]; omega) l
  simpa only [decide_eq_true_eq] using h

theorem append_mergeSort_nodup (current : List String) (id_str : String)
    (hnodup : current.Nodup) (hmem : id_str ∉ current) :
    ((current ++ [id_str]).mergeSort (fun a b => decide (pyInt a ≤ pyInt b))).Nodup := by
  apply (List.mergeSort_perm (current ++ [id_str]) _).symm.nodup
  simp [List.nodup_append, hnodup, hmem]

theorem met_add_spec (current : List String) (object_id : Nat)
    (hnodup : current.Nodup)
    (hdigits : ∀ s ∈ current, isDigitStr s = true)
    (hsorted : List.Pairwise (fun a b => pyInt a ≤ pyInt b) current) :
    (met_add_to_blacklist current object_id).2.Nodup ∧
    List.Pairwise (fun a b => pyInt a ≤ pyInt b) (met_add_to_blacklist current object_id).2 ∧
    (pyStr object_id ∈ current → met_add_to_blacklist current object_id = (false, current)) ∧
    ((met_add_to_blacklist current object_id).1 = true ↔ pyStr object_id ∉ current) := by
  unfold met_add_to_blacklist
  by_cases hmem : pyStr object_id ∈ current
  · simp only [if_pos hmem]
    exact ⟨hnodup, hsorted, fun _ => by trivial, by simp [hmem]⟩
  · simp only [if_neg hmem,
      append_all_digits current (pyStr object_id) hdigits (isDigitStr_pyStr object_id), if_true]
    exact ⟨append_mergeSort_nodup current (pyStr object_id) hnodup hmem,
      numeric_mergeSort_spec (current ++ [pyStr object_id]),
      fun h => absurd h hmem, by simp [hmem]⟩

theorem chic_add_spec (current : List String) (object_id : Nat)
    (hnodup : current.Nodup)
    (hdigits : ∀ s ∈ current, isDigitStr s = true)
    (hsorted : List.Pairwise (fun a b => pyInt a ≤ pyInt b) current) :
    (chic_add_to_blacklist current object_id).2.Nodup ∧
    List.Pairwise (fun a b => pyInt a ≤ pyInt b) (chic_add_to_blacklist current object_id).2 ∧
    (pyStr object_id ∈ current → chic_add_to_blacklist current object_id = (false, current)) ∧
    ((chic_add_to_blacklist current object_id).1 = true ↔ pyStr object_id ∉ current) := by
  unfold chic_add_to_blacklist
  by_cases hmem : pyStr object_id ∈ current
  · simp only [if_pos hmem]
    exact ⟨hnodup, hsorted, fun _ => by trivial, by simp [hmem]⟩
  · simp only [if_neg hmem,
      append_all_digits current (pyStr object_id) hdigits (isDigitStr_pyStr object_id), if_true]
    exact ⟨append_mergeSort_nodup current (pyStr object_id) hnodup hmem,
      numeric_mergeSort_spec (current ++ [pyStr object_id]),
      fun h => absurd h hmem, by simp [hmem]⟩

theorem nga_add_spec (current : List String) (object_id : String)
    (hnodup : current.Nodup)
    (hdigits : ∀ s ∈ current, isDigitStr s = true)
    (hsorted : List.Pairwise (fun a b => pyInt a ≤ pyInt b) current)
    (hid : isDigitStr object_id = true) :
    (nga_add_to_blacklist current object_id).2.Nodup ∧
    List.Pairwise (fun a b => pyInt a ≤ pyInt b) (nga_add_to_blacklist current object_id).2 ∧
    (object_id ∈ current → nga_add_to_blacklist current object_id = (false, current)) ∧
    ((nga_add_to_blacklist current object_id).1 = true ↔ object_id ∉ current) := by
  unfold nga_add_to_blacklist
  by_cases hmem : object_id ∈ current
  · simp only [if_pos hmem]
    exact ⟨hnodup, hsorted, fun _ => by trivial, by simp [hmem]⟩
  · simp only [if_neg hmem, append_all_digits current object_id hdigits hid, if_true]
    exact ⟨append_mergeSort_nodup current object_id hnodup hmem,
      numeric_mergeSort_spec (current ++ [object_id]),
      fun h => absurd h hmem, by simp [hmem]⟩

/-- C9. On a duplicate-free, numerically sorted blacklist of digit-string ids,
every `add_to_blacklist` preserves the invariant: the resulting file is
duplicate-free and sorted by numeric key, an id already present leaves the
file unchanged with result `False`, and the call returns `True` exactly when
the id was newly added. -/
theorem c9_add_to_blacklist_invariant
    (current : List String) (met_id chic_id : Nat) (nga_id : String)
    (hnodup : current.Nodup)
    (hdigits : ∀ s ∈ current, isDigitStr s = true)
    (hsorted : List.Pairwise (fun a b => pyInt a ≤ pyInt b) current)
    (hnga : isDigitStr nga_id = true) :
    ((met_add_to_blacklist current met_id).2.Nodup ∧
      List.Pairwise (fun a b => pyInt a ≤ pyInt b) (met_add_to_blacklist current met_id).2 ∧
      (pyStr met_id ∈ current → met_add_to_blacklist current met_id = (false, current)) ∧
      ((met_add_to_blacklist current met_id).1 = true ↔ pyStr met_id ∉ current)) ∧
    ((chic_add_to_blacklist current chic_id).2.Nodup ∧
      List.Pairwise (fun a b => pyInt a ≤ pyInt b) (chic_add_to_blacklist current chic_id).2 ∧
      (pyStr chic_id ∈ current → chic_add_to_blacklist current chic_id = (false, current)) ∧
      ((chic_add_to_blacklist current chic_id).1 = true ↔ pyStr chic_id ∉ current)) ∧
    ((nga_add_to_blacklist current nga_id).2.Nodup ∧
      List.Pairwise (fun a b => pyInt a ≤ pyInt b) (nga_add_to_blacklist current nga_id).2 ∧
      (nga_id ∈ current → nga_add_to_blacklist current nga_id = (false, current)) ∧
      ((nga_add_to_blacklist current nga_id).1 = true ↔ nga_id ∉ current)) :=
  ⟨met_add_spec current met_id hnodup hdigits hsorted,
    chic_add_spec current chic_id hnodup hdigits hsorted,
    nga_add_spec current nga_id hnodup hdigits hsorted hnga⟩

/-- Witness for C9: a concrete sorted blacklist and fresh ids. -/
theorem c9_add_to_blacklist_invariant_witness :
    (["3", "10"] : List String).Nodup ∧
    (∀ s ∈ (["3", "10"] : List String), isDigitStr s = true) ∧
    List.Pairwise (fun a b => pyInt a ≤ pyInt b) (["3", "10"] : List String) ∧
    isDigitStr "7" = true ∧
    ((nga_add_to_blacklist ["3", "10"] "7").1 = true ↔ "7" ∉ (["3", "10"] : List String)) ∧
    (nga_add_to_blacklist ["3", "10"] "7").2.Nodup := by
  refine ⟨by decide, by decide, by decide, by decide, ?_, ?_⟩
  · exact (c9_add_to_blacklist_invariant ["3", "10"] 7 7 "7" (by decide) (by decide)
      (by decide) (by decide)).2.2.2.2.2
  · exact (c9_add_to_blacklist_invariant ["3", "10"] 7 7 "7" (by decide) (by decide)
      (by decide) (by decide)).2.2.1

/-! ### C8: `process_artwork` appends to artworkids.json only after success

Each fetcher's `process_artwork` runs fetch-metadata, download-image,
save-metadata, append-to-artworkids in that order, returning `False` at the
first failure.  The embedding collects the outcome of each effect in an
environment record and returns the success flag together with the
artworkids.json content. -/

/-- Outcomes of the four effects `process_artwork` performs, in program
order: metadata fetch, image download (the saved filename), metadata save,
artworkids.json update. -/
structure ProcEnv (α : Type) where
  fetchResult : Option α
  imageResult : Option String
  saveOk : Bool
  appendOk : Bool

/-- `MetDownloader.process_artwork` (metfetch.py, lines 409-449), acting on the
artworkids.json content `ids`. -/
def met_process_artwork (env : ProcEnv MetObj) (ids : List String) (object_id : Nat) :
    Bool × List String :=
  match env.fetchResult with
  | none => (false, ids)
  | some _ =>
    match env.imageResult with
    | none => (false, ids)
    | some _ =>
      if env.saveOk then
        if env.appendOk then (true, ids ++ [pyStr object_id])
        else (false, ids)
      else (false, ids)

/-- `ChicDownloader.process_artwork` (chicfetch.py, lines 476-507). -/
def chic_process_artwork (env : ProcEnv ChicObj) (ids : List String) (object_id : Nat) :
    Bool × List String :=
  match env.fetchResult with
  | none => (false, ids)
  | some _ =>
    match env.imageResult with
    | none => (false, ids)
    | some _ =>
      if env.saveOk then
        if env.appendOk then (true, ids ++ [pyStr object_id])
        else (false, ids)
      else (false, ids)

/-- `RijksDownloader.process_artwork` (rijksfetch.py, lines 523-567); its
`append_to_artworkids` skips ids already present. -/
def rijks_process_artwork (env : ProcEnv RijksArtData) (ids : List String)
    (object_number : String) : Bool × List String :=
  match env.fetchResult with
  | none => (false, ids)
  | some _ =>
    match env.imageResult with
    | none => (false, ids)
    | some _ =>
      if env.saveOk then
        if env.appendOk then
          (true, if object_number ∈ ids then ids else ids ++ [object_number])
        else (false, ids)
      else (false, ids)

theorem met_process_fail (env : ProcEnv MetObj) (ids : List String) (object_id : Nat)
    (h : env.fetchResult = none ∨ env.imageResult = none ∨ env.saveOk = false) :
    met_process_artwork env ids object_id = (false, ids) := by
  unfold met_process_artwork
  rcases hf : env.fetchResult with _ | d
  · rfl
  · rcases hi : env.imageResult with _ | f
    · rfl
    · rcases h with h | h | h
      · rw [hf] at h; cases h
      · rw [hi] at h; cases h
      · simp [h]

theorem chic_process_fail (env : ProcEnv ChicObj) (ids : List String) (object_id : Nat)
    (h : env.fetchResult = none ∨ env.imageResult = none ∨ env.saveOk = false) :
    chic_process_artwork env ids object_id = (false, ids) := by
  unfold chic_process_artwork
  rcases hf : env.fetchResult with _ | d
  · rfl
  · rcases hi : env.imageResult with _ | f
    · rfl
    · rcases h with h | h | h
      · rw [hf] at h; cases h
      · rw [hi] at h; cases h
      · simp [h]

theorem rijks_process_fail (env : ProcEnv RijksArtData) (ids : List String)
    (object_number : String)
    (h : env.fetchResult = none ∨ env.imageResult = none ∨ env.saveOk = false) :
    rijks_process_artwork env ids object_number = (false, ids) := by
  unfold rijks_process_artwork
  rcases hf : env.fetchResult with _ | d
  · rfl
  · rcases hi : env.imageResult with _ | f
    · rfl
    · rcases h with h | h | h
      · rw [hf] at h; cases h
      · rw [hi] at h; cases h
      · simp [h]

theorem met_process_changed (env : ProcEnv MetObj) (ids : List String) (object_id : Nat)
    (h : (met_process_artwork env ids object_id).2 ≠ ids) :
    env.fetchResult.isSome ∧ env.imageResult.isSome ∧ env.saveOk = true := by
  refine ⟨?_, ?_, ?_⟩
  · rcases hf : env.fetchResult with _ | d
    · exact absurd (show (met_process_artwork env ids object_id).2 = ids by
        rw [met_process_fail env ids object_id (Or.inl hf)]) h
    · simp
  · rcases hi : env.imageResult with _ | f
    · exact absurd (show (met_process_artwork env ids object_id).2 = ids by
        rw [met_process_fail env ids object_id (Or.inr (Or.inl hi))]) h
    · simp
  · cases hs : env.saveOk
    · exact absurd (show (met_process_artwork env ids object_id).2 = ids by
        rw [met_process_fail env ids object_id (Or.inr (Or.inr hs))]) h
    · rfl

theorem chic_process_changed (env : ProcEnv ChicObj) (ids : List String) (object_id : Nat)
    (h : (chic_process_artwork env ids object_id).2 ≠ ids) :
    env.fetchResult.isSome ∧ env.imageResult.isSome ∧ env.saveOk = true := by
  refine ⟨?_, ?_, ?_⟩
  · rcases hf : env.fetchResult with _ | d
    · exact absurd (show (chic_process_artwork env ids object_id).2 = ids by
        rw [chic_process_fail env ids object_id (Or.inl hf)]) h
    · simp
  · rcases hi : env.imageResult with _ | f
    · exact absurd (show (chic_process_artwork env ids object_id).2 = ids by
        rw [chic_process_fail env ids object_id (Or.inr (Or.inl hi))]) h
    · simp
  · cases hs : env.saveOk
    · exact absurd (show (chic_process_artwork env ids object_id).2 = ids by
        rw [chic_process_fail env ids object_id (Or.inr (Or.inr hs))]) h
    · rfl

theorem rijks_process_changed (env : ProcEnv RijksArtData) (ids : List String)
    (object_number : String)
    (h : (rijks_process_artwork env ids object_number).2 ≠ ids) :
    env.fetchResult.isSome ∧ env.imageResult.isSome ∧ env.saveOk = true := by
  refine ⟨?_, ?_, ?_⟩
  · rcases hf : env.fetchResult with _ | d
    · exact absurd (show (rijks_process_artwork env ids object_number).2 = ids by
        rw [rijks_process_fail env ids object_number (Or.inl hf)]) h
    · simp
  · rcases hi : env.imageResult with _ | f
    · exact absurd (show (rijks_process_artwork env ids object_number).2 = ids by
        rw [rijks_process_fail env ids object_number (Or.inr (Or.inl hi))]) h
    · simp
  · cases hs : env.saveOk
    · exact absurd (show (rijks_process_artwork env ids object_number).2 = ids by
        rw [rijks_process_fail env ids object_number (Or.inr (Or.inr hs))]) h
    · rfl

/-- C8. In every fetcher's `process_artwork`, artworkids.json changes only
when metadata fetch, image download and metadata save all succeeded; and if
any of the three fails, the call returns `False` with artworkids.json
untouched. -/
theorem c8_process_artwork_append_order
    (metEnv : ProcEnv MetObj) (chicEnv : ProcEnv ChicObj) (rijksEnv : ProcEnv RijksArtData)
    (ids : List String) (met_id chic_id : Nat) (rijks_id : String) :
    (((met_process_artwork metEnv ids met_id).2 ≠ ids →
        metEnv.fetchResult.isSome ∧ metEnv.imageResult.isSome ∧ metEnv.saveOk = true) ∧
      (metEnv.fetchResult = none ∨ metEnv.imageResult = none ∨ metEnv.saveOk = false →
        met_process_artwork metEnv ids met_id = (false, ids))) ∧
    (((chic_process_artwork chicEnv ids chic_id).2 ≠ ids →
        chicEnv.fetchResult.isSome ∧ chicEnv.imageResult.isSome ∧ chicEnv.saveOk = true) ∧
      (chicEnv.fetchResult = none ∨ chicEnv.imageResult = none ∨ chicEnv.saveOk = false →
        chic_process_artwork chicEnv ids chic_id = (false, ids))) ∧
    (((rijks_process_artwork rijksEnv ids rijks_id).2 ≠ ids →
        rijksEnv.fetchResult.isSome ∧ rijksEnv.imageResult.isSome ∧ rijksEnv.saveOk = true) ∧
      (rijksEnv.fetchResult = none ∨ rijksEnv.imageResult = none ∨ rijksEnv.saveOk = false →
        rijks_process_artwork rijksEnv ids rijks_id = (false, ids))) :=
  ⟨⟨met_process_changed metEnv ids met_id, met_process_fail metEnv ids met_id⟩,
    ⟨chic_process_changed chicEnv ids chic_id, chic_process_fail chicEnv ids chic_id⟩,
    ⟨rijks_process_changed rijksEnv ids rijks_id, rijks_process_fail rijksEnv ids rijks_id⟩⟩

/-- Witness for C8: with a failed metadata fetch, all three `process_artwork`
calls return `False` and leave artworkids.json unchanged. -/
theorem c8_process_artwork_append_order_witness :
    met_process_artwork ⟨none, some "7.jpg", true, true⟩ ["1"] 7 = (false, ["1"]) ∧
    chic_process_artwork ⟨none, some "7.jpg", true, true⟩ ["1"] 7 = (false, ["1"]) ∧
    rijks_process_artwork ⟨none, some "a.jpg", true, true⟩ ["1"] "SK-A-1" = (false, ["1"]) := by
  refine ⟨?_, ?_, ?_⟩
  · exact (c8_process_artwork_append_order ⟨none, some "7.jpg", true, true⟩
      ⟨none, some "7.jpg", true, true⟩ ⟨none, some "a.jpg", true, true⟩ ["1"] 7 7
      "SK-A-1").1.2 (Or.inl rfl)
  · exact (c8_process_artwork_append_order ⟨none, some "7.jpg", true, true⟩
      ⟨none, some "7.jpg", true, true⟩ ⟨none, some "a.jpg", true, true⟩ ["1"] 7 7
      "SK-A-1").2.1.2 (Or.inl rfl)
  · exact (c8_process_artwork_append_order ⟨none, some "7.jpg", true, true⟩
      ⟨none, some "7.jpg", true, true⟩ ⟨none, some "a.jpg", true, true⟩ ["1"] 7 7
      "SK-A-1").2.2.2 (Or.inl rfl)

/-! ### JSON values

A deep model of the JSON values `json.load` produces, with the CPython
behaviours the scripts rely on: truthiness, `dict.get`, and key lookup. -/

/-- A parsed JSON value. -/
inductive JsonVal where
  | jnull
  | jbool (b : Bool)
  | jnum (n : Int)
  | jstr (s : String)
  | jarr (elems : List JsonVal)
  | jobj (fields : List (String × JsonVal))

/-- Python truthiness of a JSON value. -/
def pyTruthy (v : JsonVal) : Bool :=
  match v with
  | .jnull => false
  | .jbool b => b
  | .jnum n => n != 0
  | .jstr s => s != ""
  | .jarr xs => !xs.isEmpty
  | .jobj kvs => !kvs.isEmpty

/-- Key lookup on a JSON value: the value under `k` when it is an object with
that key, else `none`. -/
def jsonLookup (v : JsonVal) (k : String) : Option JsonVal :=
  match v with
  | .jobj kvs => (kvs.find? (fun kv => kv.1 == k)).map (fun kv => kv.2)
  | _ => none

/-! ### C6: `prepend_credit_line` (json_processor.py, lines 21-99)

The function reads the document, and when `creditLine` holds a string it
strips it, skips if it already starts with the prefix, and otherwise writes
the prefix plus the stripped value back.  The embedding works on the parsed
document, an association list of fields; the file read/write error paths are
outside the model. -/

/-- Status values returned by `prepend_credit_line` on a parsed document. -/
inductive CreditStatus where
  | SUCCESS
  | SKIP
  | FAIL

/-- Python `data[k] = v` on a dict with `k` present. -/
def setKey (kvs : List (String × JsonVal)) (k : String) (v : JsonVal) :
    List (String × JsonVal) :=
  kvs.map (fun kv => if kv.1 == k then (kv.1, v) else kv)

/-- `prepend_credit_line` on the parsed document `kvs` with prefix `pre`. -/
def prepend_credit_line (kvs : List (String × JsonVal)) (pre : String) :
    CreditStatus × List (String × JsonVal) :=
  match (kvs.find? (fun kv => kv.1 == "creditLine")).map (fun kv => kv.2) with
  | some (JsonVal.jstr s) =>
    let current := pyStrip s
    if pyStartsWith current pre then (.SKIP, kvs)
    else (.SUCCESS, setKey kvs "creditLine" (.jstr (pre ++ current)))
  | _ => (.FAIL, kvs)

/-- Counterexample to C6 as stated: on a file whose `creditLine` is the empty
string (a string!), with the module's prefix "Metropolitan Museum of Art. ",
the first run writes the bare prefix, whose stripped form loses the trailing
space and no longer starts with the prefix — so the second run prepends
again and the file content after two runs differs from the content after
one. -/
theorem c6_counterexample_double_prepend :
    (prepend_credit_line [("creditLine", JsonVal.jstr "")]
        "Metropolitan Museum of Art. ").2 =
      [("creditLine", JsonVal.jstr "Metropolitan Museum of Art. ")] ∧
    (prepend_credit_line
        (prepend_credit_line [("creditLine", JsonVal.jstr "")]
          "Metropolitan Museum of Art. ").2
        "Metropolitan Museum of Art. ").1 = CreditStatus.SUCCESS ∧
    (prepend_credit_line
        (prepend_credit_line [("creditLine", JsonVal.jstr "")]
          "Metropolitan Museum of Art. ").2
        "Metropolitan Museum of Art. ").2 =
      [("creditLine", JsonVal.jstr
        "Metropolitan Museum of Art. Metropolitan Museum of Art.")] ∧
    (prepend_credit_line
        (prepend_credit_line [("creditLine", JsonVal.jstr "")]
          "Metropolitan Museum of Art. ").2
        "Metropolitan Museum of Art. ").2 ≠
      (prepend_credit_line [("creditLine", JsonVal.jstr "")]
        "Metropolitan Museum of Art. ").2 := by
  have hB : (prepend_credit_line [("creditLine", JsonVal.jstr "")]
      "Metropolitan Museum of Art. ").2 =
      [("creditLine", JsonVal.jstr "Metropolitan Museum of Art. ")] := by rfl
  have hA : (prepend_credit_line
      (prepend_credit_line [("creditLine", JsonVal.jstr "")]
        "Metropolitan Museum of Art. ").2
      "Metropolitan Museum of Art. ").2 =
      [("creditLine", JsonVal.jstr
        "Metropolitan Museum of Art. Metropolitan Museum of Art.")] := by rfl
  refine ⟨hB, by rfl, hA, ?_⟩
  intro h
  rw [hA, hB] at h
  injection h with h1 _
  injection h1 with _ h3
  injection h3 with h4
  exact absurd h4 (by decide)

theorem rdropWhile_cons_neg_char (p : Char → Bool) (c : Char) (m : List Char)
    (hc : p c = false) :
    List.rdropWhile p (c :: m) = c :: List.rdropWhile p m := by
  unfold List.rdropWhile
  rw [List.reverse_cons, List.dropWhile_append]
  split
  · rename_i hemp
    have hemp' : m.reverse.dropWhile p = [] := by simpa [List.isEmpty_iff] using hemp
    simp [List.dropWhile_cons, hc, hemp']
  · rename_i hemp
    simp [List.reverse_append]

theorem dropWhile_pyStripData (l : List Char) :
    (pyStripData l).dropWhile pyIsSpace = pyStripData l := by
  unfold pyStripData
  have hmm : (l.dropWhile pyIsSpace).dropWhile pyIsSpace = l.dropWhile pyIsSpace :=
    List.dropWhile_idempotent _ _
  cases hm2 : l.dropWhile pyIsSpace with
  | nil => simp [List.rdropWhile_nil]
  | cons c m' =>
    have hcm : (c :: m').dropWhile pyIsSpace = c :: m' := by rw [← hm2]; exact hmm
    have hc : pyIsSpace c = false := by
      have h0 := (List.dropWhile_eq_self_iff.mp hcm) (by simp)
      simpa using h0
    rw [rdropWhile_cons_neg_char pyIsSpace c m' hc, List.dropWhile_cons]
    simp [hc]

theorem rdropWhile_pyStripData (l : List Char) :
    List.rdropWhile pyIsSpace (pyStripData l) = pyStripData l := by
  unfold pyStripData
  exact List.rdropWhile_idempotent _ _

theorem pyStripData_idem (l : List Char) : pyStripData (pyStripData l) = pyStripData l := by
  show List.rdropWhile pyIsSpace ((pyStripData l).dropWhile pyIsSpace) = pyStripData l
  rw [dropWhile_pyStripData]
  exact rdropWhile_pyStripData l

theorem dropWhile_append_of_clean (p : Char → Bool) (pre t : List Char)
    (h1 : pre.dropWhile p = pre) (h2 : t.dropWhile p = t) :
    (pre ++ t).dropWhile p = pre ++ t := by
  rw [List.dropWhile_append]
  split
  · rename_i hemp
    rw [h1] at hemp
    have hpre_nil : pre = [] := by simpa [List.isEmpty_iff] using hemp
    subst hpre_nil
    simpa using h2
  · rw [h1]

theorem rdropWhile_append_of_clean (p : Char → Bool) (pre t : List Char)
    (ht : List.rdropWhile p t = t) (hne : t ≠ []) :
    List.rdropWhile p (pre ++ t) = pre ++ t := by
  rw [List.rdropWhile_eq_self_iff]
  intro hl
  have h1 := List.rdropWhile_eq_self_iff.mp ht hne
  have h2 : (pre ++ t).getLast hl = t.getLast hne := List.getLast_append' pre t hne
  rw [h2]
  exact h1

theorem pyStripData_append_clean (pre t : List Char)
    (hpre : pre.dropWhile pyIsSpace = pre)
    (ht : pyStripData t = t)
    (hcase : t ≠ [] ∨ pyStripData pre = pre) :
    pyStripData (pre ++ t) = pre ++ t := by
  by_cases hte : t = []
  · subst hte
    rcases hcase with hcase | hcase
    · exact absurd rfl hcase
    · simpa using hcase
  · have hdw_t : t.dropWhile pyIsSpace = t := by
      rw [← ht]
      exact dropWhile_pyStripData t
    have hrd_t : List.rdropWhile pyIsSpace t = t := by
      rw [← ht]
      exact rdropWhile_pyStripData t
    show List.rdropWhile pyIsSpace ((pre ++ t).dropWhile pyIsSpace) = pre ++ t
    rw [dropWhile_append_of_clean pyIsSpace pre t hpre hdw_t]
    exact rdropWhile_append_of_clean pyIsSpace pre t hrd_t hte

theorem isPrefixOf_append_self (l t : List Char) : l.isPrefixOf (l ++ t) = true := by
  induction l with
  | nil => simp [List.isPrefixOf]
  | cons c l ih => simp [List.isPrefixOf, ih]

theorem find?_map_setKey (kvs : List (String × JsonVal)) (k : String) (v : JsonVal)
    (h : ((kvs.find? (fun kv => kv.1 == k)).map (fun kv => kv.2)).isSome) :
    ((setKey kvs k v).find? (fun kv => kv.1 == k)).map (fun kv => kv.2) = some v := by
  induction kvs with
  | nil => simp at h
  | cons kv rest ih =>
    cases hk : kv.1 == k
    · have hsk : setKey (kv :: rest) k v = kv :: setKey rest k v := by
        unfold setKey
        rw [List.map_cons, if_neg (by simp [hk])]
      rw [hsk, List.find?_cons_of_neg (setKey rest k v) (by simp [hk])]
      rw [List.find?_cons_of_neg rest (by simp [hk])] at h
      exact ih h
    · have hsk : setKey (kv :: rest) k v = (kv.1, v) :: setKey rest k v := by
        unfold setKey
        rw [List.map_cons, if_pos hk]
      rw [hsk, List.find?_cons_of_pos (setKey rest k v) hk]
      rfl

/-- C6 (amended): `prepend_credit_line` is idempotent on every document whose
`creditLine` is a string, provided the prefix has no leading whitespace and
either the stripped credit line is non-empty or the prefix carries no
surrounding whitespace — the counterexample (whitespace-only credit line with
the module's space-terminated prefix) is exactly what the extra condition
excludes.  The second run then detects the prefix and returns `SKIP` without
modifying the document. -/
theorem c6_prepend_credit_line_idempotent
    (kvs : List (String × JsonVal)) (s : String) (pre : String)
    (hcl : (kvs.find? (fun kv => kv.1 == "creditLine")).map (fun kv => kv.2) =
      some (JsonVal.jstr s))
    (hpre : pre.data.dropWhile pyIsSpace = pre.data)
    (hcase : pyStripData s.data ≠ [] ∨ pyStripData pre.data = pre.data) :
    prepend_credit_line (prepend_credit_line kvs pre).2 pre =
      (CreditStatus.SKIP, (prepend_credit_line kvs pre).2) := by
  by_cases hstart : pyStartsWith (pyStrip s) pre = true
  · have h1 : prepend_credit_line kvs pre = (CreditStatus.SKIP, kvs) := by
      unfold prepend_credit_line
      rw [hcl]
      dsimp only
      rw [if_pos hstart]
    rw [h1]
    exact h1
  · have hstart' : pyStartsWith (pyStrip s) pre = false := by
      cases h : pyStartsWith (pyStrip s) pre
      · rfl
      · exact absurd h hstart
    have h1 : prepend_credit_line kvs pre =
        (CreditStatus.SUCCESS, setKey kvs "creditLine" (JsonVal.jstr (pre ++ pyStrip s))) := by
      unfold prepend_credit_line
      rw [hcl]
      dsimp only
      rw [if_neg (by simp [hstart'])]
    rw [h1]
    have hfind : ((setKey kvs "creditLine" (JsonVal.jstr (pre ++ pyStrip s))).find?
        (fun kv => kv.1 == "creditLine")).map (fun kv => kv.2) =
        some (JsonVal.jstr (pre ++ pyStrip s)) :=
      find?_map_setKey kvs "creditLine" _ (by rw [hcl]; rfl)
    have hdata : (pre ++ pyStrip s).data = pre.data ++ pyStripData s.data := by
      rw [String.data_append]
      rfl
    have hstrip : pyStrip (pre ++ pyStrip s) = ⟨pre.data ++ pyStripData s.data⟩ := by
      show (⟨pyStripData (pre ++ pyStrip s).data⟩ : String) = _
      rw [hdata, pyStripData_append_clean pre.data (pyStripData s.data) hpre
        (pyStripData_idem s.data) hcase]
    have hsw : pyStartsWith (pyStrip (pre ++ pyStrip s)) pre = true := by
      rw [hstrip]
      exact isPrefixOf_append_self pre.data (pyStripData s.data)
    unfold prepend_credit_line
    rw [hfind]
    dsimp only
    rw [if_pos hsw]

/-- Witness for C6 (amended): a real credit line with the module's prefix;
running twice equals running once. -/
theorem c6_prepend_credit_line_idempotent_witness :
    (([("creditLine", JsonVal.jstr "Gift of X")].find?
        (fun kv => kv.1 == "creditLine")).map (fun kv => kv.2) =
      some (JsonVal.jstr "Gift of X")) ∧
    ("Metropolitan Museum of Art. ".data.dropWhile pyIsSpace =
      "Metropolitan Museum of Art. ".data) ∧
    (pyStripData "Gift of X".data ≠ []) ∧
    prepend_credit_line
        (prepend_credit_line [("creditLine", JsonVal.jstr "Gift of X")]
          "Metropolitan Museum of Art. ").2 "Metropolitan Museum of Art. " =
      (CreditStatus.SKIP,
        (prepend_credit_line [("creditLine", JsonVal.jstr "Gift of X")]
          "Metropolitan Museum of Art. ").2) := by
  refine ⟨rfl, by decide, by decide, ?_⟩
  exact c6_prepend_credit_line_idempotent [("creditLine", JsonVal.jstr "Gift of X")]
    "Gift of X" "Metropolitan Museum of Art. " rfl (by decide) (Or.inl (by decide))

/-! ### C7: deploycheck.py validation (lines 30-121)

For each id the script checks the metadata file, its required fields and the
referenced image, counting `total_issues`; a non-`JSONDecodeError` exception
aborts the remaining checks for that id without counting.  The filesystem is
an environment: the parsed metadata per id (`none` missing file, `some none`
a JSON decode error) and an image-existence oracle over the JSON value named
by `localImage`. -/

/-- Python `f in data` per runtime type: key test on dicts, membership on
lists, substring on strings, `TypeError` (`none`) otherwise. -/
def pyContains (data : JsonVal) (f : String) : Option Bool :=
  match data with
  | .jobj kvs => some (kvs.any (fun kv => kv.1 == f))
  | .jarr xs => some (xs.any (fun v => match v with | .jstr t => t == f | _ => false))
  | .jstr s => some (containsSub s.data f.data)
  | _ => none

/-- Python `data[f]` for a string key: dict lookup, `TypeError` otherwise
(`none` also covers `KeyError`). -/
def pyIndexStr (data : JsonVal) (f : String) : Option JsonVal :=
  match data with
  | .jobj kvs => (kvs.find? (fun kv => kv.1 == f)).map (fun kv => kv.2)
  | _ => none

/-- Python `v in (None, "")`. -/
def isNoneOrEmptyStr (v : JsonVal) : Bool :=
  match v with
  | .jnull => true
  | .jstr s => s == ""
  | _ => false

/-- deploycheck.py `required_fields`. -/
def required_fields : List String :=
  ["objectID", "title", "localImage", "isPublicDomain", "objectURL"]

/-- The `for field in required_fields` loop: the number of missing-field
issues recorded before the loop ends or raises, and whether it raised. -/
def deploy_field_loop (data : JsonVal) : List String → Nat × Bool
  | [] => (0, false)
  | f :: fs =>
    match pyContains data f with
    | none => (0, true)
    | some false =>
      let r := deploy_field_loop data fs
      (r.1 + 1, r.2)
    | some true =>
      match pyIndexStr data f with
      | none => (0, true)
      | some v =>
        let add := if isNoneOrEmptyStr v then 1 else 0
        let r := deploy_field_loop data fs
        (r.1 + add, r.2)

/-- The filesystem as deploycheck sees it: parsed metadata per id, and
whether `public/images/` + `str(v)` exists for the JSON value `v` stored
under `localImage`. -/
structure DeployEnv where
  metadataFile : String → Option (Option JsonVal)
  imageExists : JsonVal → Bool

/-- The image-existence check (0 or 1 issues); exceptions contribute none. -/
def deploy_image_issue (env : DeployEnv) (data : JsonVal) : Nat :=
  match pyContains data "localImage" with
  | none => 0
  | some false => 0
  | some true =>
    match pyIndexStr data "localImage" with
    | none => 0
    | some v => if pyTruthy v then (if env.imageExists v then 0 else 1) else 0

/-- The issues one id of artworkids.json contributes to `total_issues`. -/
def deploy_check_id (env : DeployEnv) (obj_id : String) : Nat :=
  match env.metadataFile obj_id with
  | none => 1
  | some none => 1
  | some (some data) =>
    let fr := deploy_field_loop data required_fields
    fr.1 + (if fr.2 then 0 else deploy_image_issue env data)

/-- deploycheck.py `total_issues` over the listed object ids. -/
def deploy_total_issues (env : DeployEnv) (object_ids : List String) : Nat :=
  (object_ids.map (deploy_check_id env)).sum

/-- The deploy-blocking condition in claim C7's own words: metadata file
missing, file unparsable, a required field absent or `None` or the empty
string, or the image named by `localImage` missing. -/
def deploy_spec_issue (env : DeployEnv) (obj_id : String) : Bool :=
  match env.metadataFile obj_id with
  | none => true
  | some none => true
  | some (some data) =>
    (required_fields.any (fun f =>
      match jsonLookup data f with
      | none => true
      | some v => isNoneOrEmptyStr v)) ||
    (match jsonLookup data "localImage" with
      | some v => pyTruthy v && !env.imageExists v
      | none => false)

/-- A JSON object test. -/
def isJObj (v : JsonVal) : Bool :=
  match v with
  | .jobj _ => true
  | _ => false

/-- An environment whose only metadata file parses to the JSON number 5. -/
def deploy_env_demo : DeployEnv :=
  ⟨fun _ => some (some (JsonVal.jnum 5)), fun _ => true⟩

/-- Counterexample to C7 as stated: a metadata file containing just `5`
parses as JSON but is no object; the field loop raises `TypeError` at the
first `field not in data`, the generic handler swallows it, and
`total_issues` stays 0 — "all required checks passed" is reported although
every required field is absent. -/
theorem c7_counterexample_nondict_metadata :
    deploy_total_issues deploy_env_demo ["1"] = 0 ∧
    deploy_spec_issue deploy_env_demo "1" = true :=
  ⟨rfl, rfl⟩

theorem deploy_field_loop_jobj (kvs : List (String × JsonVal)) (fs : List String) :
    deploy_field_loop (JsonVal.jobj kvs) fs =
      ((fs.filter (fun f =>
        match jsonLookup (JsonVal.jobj kvs) f with
        | none => true
        | some v => isNoneOrEmptyStr v)).length, false) := by
  induction fs with
  | nil => rfl
  | cons f fs ih =>
    cases hk : kvs.any (fun kv => kv.1 == f) with
    | false =>
      have hfind : kvs.find? (fun kv => kv.1 == f) = none := by
        rw [List.find?_eq_none]
        intro x hx
        have := (List.any_eq_false.mp hk) x hx
        simpa using this
      have hlook : jsonLookup (JsonVal.jobj kvs) f = none := by
        simp [jsonLookup, hfind]
      simp only [deploy_field_loop, pyContains, hk, ih, List.filter_cons, hlook,
        List.length_cons]
      simp
    | true =>
      have hfind : (kvs.find? (fun kv => kv.1 == f)).isSome := by
        rw [List.find?_isSome]
        exact List.any_eq_true.mp hk
      obtain ⟨kv₀, hkv⟩ := Option.isSome_iff_exists.mp hfind
      have hlook : jsonLookup (JsonVal.jobj kvs) f = some kv₀.2 := by
        simp [jsonLookup, hkv]
      simp only [deploy_field_loop, pyContains, hk, pyIndexStr, hkv, Option.map_some',
        ih, List.filter_cons, hlook]
      cases hne : isNoneOrEmptyStr kv₀.2 <;> simp [hne]

theorem deploy_image_issue_eq_zero_iff (env : DeployEnv) (kvs : List (String × JsonVal)) :
    deploy_image_issue env (JsonVal.jobj kvs) = 0 ↔
      (match jsonLookup (JsonVal.jobj kvs) "localImage" with
        | some v => pyTruthy v && !env.imageExists v
        | none => false) = false := by
  cases hk : kvs.any (fun kv => kv.1 == "localImage") with
  | false =>
    have hfind : kvs.find? (fun kv => kv.1 == "localImage") = none := by
      rw [List.find?_eq_none]
      intro x hx
      have := (List.any_eq_false.mp hk) x hx
      simpa using this
    simp [deploy_image_issue, pyContains, hk, jsonLookup, hfind]
  | true =>
    have hfind : (kvs.find? (fun kv => kv.1 == "localImage")).isSome := by
      rw [List.find?_isSome]
      exact List.any_eq_true.mp hk
    obtain ⟨kv₀, hkv⟩ := Option.isSome_iff_exists.mp hfind
    simp only [deploy_image_issue, pyContains, hk, pyIndexStr, hkv, Option.map_some',
      jsonLookup]
    cases ht : pyTruthy kv₀.2 with
    | false => simp [ht]
    | true =>
      cases he : env.imageExists kv₀.2 with
      | false => simp [ht, he]
      | true => simp [ht, he]

theorem deploy_check_id_eq_zero_iff (env : DeployEnv) (obj_id : String)
    (hobj : ∀ v, env.metadataFile obj_id = some (some v) → isJObj v = true) :
    (deploy_check_id env obj_id = 0 ↔ deploy_spec_issue env obj_id = false) := by
  cases hm : env.metadataFile obj_id with
  | none => simp [deploy_check_id, deploy_spec_issue, hm]
  | some o =>
    cases o with
    | none => simp [deploy_check_id, deploy_spec_issue, hm]
    | some data =>
      have hj := hobj data hm
      cases data with
      | jnull => simp [isJObj] at hj
      | jbool b => simp [isJObj] at hj
      | jnum n => simp [isJObj] at hj
      | jstr s => simp [isJObj] at hj
      | jarr xs => simp [isJObj] at hj
      | jobj kvs =>
        simp only [deploy_check_id, deploy_spec_issue, hm,
          deploy_field_loop_jobj kvs required_fields]
        rw [show ((if false = true then 0 else deploy_image_issue env (JsonVal.jobj kvs))) =
          deploy_image_issue env (JsonVal.jobj kvs) from by simp]
        rw [Nat.add_eq_zero]
        rw [Bool.or_eq_false_iff]
        constructor
        · rintro ⟨h1, h2⟩
          refine ⟨?_, (deploy_image_issue_eq_zero_iff env kvs).mp h2⟩
          rw [List.length_eq_zero] at h1
          rw [List.any_eq_false]
          intro f hf
          have := List.filter_eq_nil_iff.mp h1 f hf
          simpa using this
        · rintro ⟨h1, h2⟩
          refine ⟨?_, (deploy_image_issue_eq_zero_iff env kvs).mpr h2⟩
          rw [List.length_eq_zero, List.filter_eq_nil_iff]
          intro f hf
          have := List.any_eq_false.mp h1 f hf
          simpa using this

/-- C7 (amended): when every metadata file that parses yields a JSON object,
deploycheck counts an id as deploy-blocking exactly when its metadata file is
missing, unparsable, misses a required field (absent, `None` or empty), or
names a missing image — and "all required checks passed" is reported exactly
when no listed id has such an issue.  (The counterexample shows the claim
fails without the object restriction: a file parsing to a bare JSON number
raises `TypeError`, is swallowed, and is not counted.) -/
theorem c7_deploycheck_issue_iff (env : DeployEnv) (object_ids : List String)
    (hobj : ∀ id ∈ object_ids, ∀ v, env.metadataFile id = some (some v) → isJObj v = true) :
    (∀ id ∈ object_ids, (0 < deploy_check_id env id ↔ deploy_spec_issue env id = true)) ∧
    (deploy_total_issues env object_ids = 0 ↔
      ∀ id ∈ object_ids, deploy_spec_issue env id = false) := by
  constructor
  · intro id hid
    have h := deploy_check_id_eq_zero_iff env id (hobj id hid)
    constructor
    · intro hpos
      cases hs : deploy_spec_issue env id with
      | true => rfl
      | false => exact absurd (h.mpr hs) (by omega)
    · intro hs
      rcases Nat.eq_zero_or_pos (deploy_check_id env id) with hz | hp
      · rw [h.mp hz] at hs; cases hs
      · exact hp
  · unfold deploy_total_issues
    rw [List.sum_eq_zero_iff]
    constructor
    · intro h id hid
      exact (deploy_check_id_eq_zero_iff env id (hobj id hid)).mp
        (h _ (List.mem_map_of_mem _ hid))
    · intro h x hx
      obtain ⟨id, hid, rfl⟩ := List.mem_map.mp hx
      exact (deploy_check_id_eq_zero_iff env id (hobj id hid)).mpr (h id hid)

/-- A well-formed single-artwork environment for the C7 witness. -/
def deploy_env_good : DeployEnv :=
  ⟨fun _ => some (some (JsonVal.jobj
    [("objectID", JsonVal.jstr "1"), ("title", JsonVal.jstr "T"),
     ("localImage", JsonVal.jstr "1.jpg"), ("isPublicDomain", JsonVal.jbool true),
     ("objectURL", JsonVal.jstr "u")])), fun _ => true⟩

/-- Witness for C7 (amended): on a complete metadata file with its image
present, no issues are counted. -/
theorem c7_deploycheck_issue_iff_witness :
    (∀ id ∈ (["1"] : List String), ∀ v, deploy_env_good.metadataFile id = some (some v) →
      isJObj v = true) ∧
    deploy_total_issues deploy_env_good ["1"] = 0 := by
  have hobj : ∀ id ∈ (["1"] : List String), ∀ v,
      deploy_env_good.metadataFile id = some (some v) → isJObj v = true := by
    intro id hid v hv
    injection hv with h1
    injection h1 with h2
    rw [← h2]
    rfl
  refine ⟨hobj, ?_⟩
  refine (c7_deploycheck_issue_iff deploy_env_good ["1"] hobj).2.mpr ?_
  intro id hid
  have hone : id = "1" := by simpa using hid
  subst hone
  rfl

/-! ### C10: tools/check.py

The script scans every `.json` file in the metadata folder and records
`data.get("objectID")` whenever `data.get("isPublicDomain", True)` is falsy;
errors (parse failures, non-dict data) skip the file. -/

/-- Python `data.get(k, dflt)`: `none` is the `AttributeError` on non-dicts. -/
def pyGetD (data : JsonVal) (k : String) (dflt : JsonVal) : Option JsonVal :=
  match data with
  | .jobj kvs => some ((((kvs.find? (fun kv => kv.1 == k)).map (fun kv => kv.2))).getD dflt)
  | _ => none

/-- The per-file body of tools/check.py: the recorded objectID value, `none`
when the file is skipped (public domain, missing key defaulting to `True`,
or an exception). -/
def check_non_public_domain (data : JsonVal) : Option JsonVal :=
  match pyGetD data "isPublicDomain" (JsonVal.jbool true) with
  | none => none
  | some v =>
    if pyTruthy v then none
    else pyGetD data "objectID" JsonVal.jnull

/-- Python `s.endswith(t)`. -/
def pyEndsWith (s suf : String) : Bool := suf.data.reverse.isPrefixOf s.data.reverse

/-- The whole scan of tools/check.py over the directory listing: each entry
is a file name with its parse result (`none` = unreadable or invalid JSON). -/
def check_run (files : List (String × Option JsonVal)) : List JsonVal :=
  files.filterMap (fun nf =>
    if pyEndsWith nf.1 ".json" then
      match nf.2 with
      | none => none
      | some d => check_non_public_domain d
    else none)

/-- C10. A metadata file's objectID is recorded exactly when the file has an
`isPublicDomain` key with a falsy value; a file without the key defaults to
`True` and is never reported. -/
theorem c10_check_only_reports_falsy (data : JsonVal) :
    ((check_non_public_domain data).isSome ↔
      ∃ v, jsonLookup data "isPublicDomain" = some v ∧ pyTruthy v = false) ∧
    (jsonLookup data "isPublicDomain" = none → check_non_public_domain data = none) := by
  cases data with
  | jnull => simp [check_non_public_domain, pyGetD, jsonLookup]
  | jbool b => simp [check_non_public_domain, pyGetD, jsonLookup]
  | jnum n => simp [check_non_public_domain, pyGetD, jsonLookup]
  | jstr s => simp [check_non_public_domain, pyGetD, jsonLookup]
  | jarr xs => simp [check_non_public_domain, pyGetD, jsonLookup]
  | jobj kvs =>
    cases hkv : kvs.find? (fun kv => kv.1 == "isPublicDomain") with
    | none =>
      simp [check_non_public_domain, pyGetD, jsonLookup, hkv, pyTruthy]
    | some kv₀ =>
      simp only [check_non_public_domain, pyGetD, jsonLookup, hkv, Option.map_some',
        Option.getD_some]
      cases ht : pyTruthy kv₀.2 with
      | true => simp [ht]
      | false => simp [ht]
